import Mathlib

/-!
Verification of the amaxa dependency-aware extraction/load engine
(src/amaxa/amaxa.py) against its natural-language specification.

The Python source is shallowly embedded: records are ordered association
lists of field name to nullable string value, Python `dict` / `set`
behavior is modelled explicitly, and every fallible construct (KeyError,
ValueError, TypeError, raised Exception, NotImplementedError) is an
`Except PyError` result.
-/

namespace Amaxa

/-- Errors a modelled Python computation can raise. -/
inductive PyError where
  | keyError (k : String)
  | indexError
  | valueError (msg : String)
  | typeError (msg : String)
  | exception (msg : String)
  | notImplementedError
deriving DecidableEq, Repr

/-- Field names are Python strings. -/
abbrev FieldName := String

/-- sObject (entity type) names are Python strings. -/
abbrev SObjectName := String

/-- Normalized 18-character Salesforce identifier, as its character list
(`SalesforceId.id` in the source). -/
abbrev SfId := List Char

/-- Record: an ordered mapping of field name to nullable string value,
modelling the Python `dict` rows the engine processes (`None` = `none`). -/
abbrev Record := List (FieldName × Option String)

/-- Python `record[k]` on a dict: first matching key, KeyError when absent. -/
def pyGet (r : Record) (k : FieldName) : Except PyError (Option String) :=
  match r.lookup k with
  | some v => .ok v
  | none => .error (.keyError k)

/-- Python `del record[k]`: removes the key from the dict. -/
def pyDel (r : Record) (k : FieldName) : Record :=
  r.filter (fun p => p.1 ≠ k)

/-- Python `xs[i]` on a list: IndexError when out of range. -/
def pyIndex {α : Type} (xs : List α) (i : Nat) : Except PyError α :=
  match xs.get? i with
  | some x => .ok x
  | none => .error .indexError

/-- Python `set` object. The element list carries the set's contents;
construction sites keep it duplicate-free. -/
structure PySet (α : Type) where
  elems : List α
deriving DecidableEq

/-- Python `+` applied to two `set` objects is unsupported and raises
TypeError (sets support `|` for union, not `+`). `LoadStep.scan_fields`
builds `dependent_lookups` and `self_lookups` as set comprehensions, so
`self.dependent_lookups + self.self_lookups` on line 296 hits this. -/
def pySetPlus {α : Type} (_a _b : PySet α) : Except PyError (PySet α) :=
  .error (.typeError "unsupported operand types for +: set and set")

/-! ## SalesforceId (source lines 21-56) -/

/-- Uppercase-ASCII test used by the 15-to-18 suffix computation
(`character >= 'A' and character <= 'Z'`). -/
def upperAZ (c : Char) : Bool :=
  decide ('A' ≤ c) && decide (c ≤ 'Z')

/-- Alphabet indexed by the suffix computation
(`'ABCDEFGHIJKLMNOPQRSTUVWXYZ012345'[baseTwo]`). -/
def sfSuffixAlphabet : List Char :=
  "ABCDEFGHIJKLMNOPQRSTUVWXYZ012345".toList

/-- Inner loop of `SalesforceId.__init__`: `baseTwo` accumulated over the
five characters `idstr[i*5+j]`, adding `1 << j` for each uppercase one. -/
def sfChunkValue (s : List Char) (i : Nat) : Nat :=
  (List.range 5).foldl
    (fun acc j => if upperAZ (s.getD (i * 5 + j) ' ') then acc + (1 <<< j) else acc) 0

/-- Outer loop of `SalesforceId.__init__`: the three-character checksum
suffix appended to a 15-character identifier. -/
def sfSuffix (s : List Char) : List Char :=
  (List.range 3).map (fun i => sfSuffixAlphabet.getD (sfChunkValue s i) 'A')

/-- Construction of a `SalesforceId` from a string (`SalesforceId.__init__`
with a `str` argument): 15 characters gain the checksum suffix, 18 are
stored as-is, anything else raises ValueError. -/
def salesforceId (s : List Char) : Except PyError SfId :=
  if s.length = 15 then .ok (s ++ sfSuffix s)
  else if s.length = 18 then .ok s
  else .error (.valueError "Salesforce Ids must be 15 or 18 characters.")

/-- Construction from a nullable value: `SalesforceId(None)` evaluates
`len(None)` and raises TypeError. -/
def salesforceIdOpt (v : Option String) : Except PyError SfId :=
  match v with
  | none => .error (.typeError "object of type NoneType has no len")
  | some s => salesforceId s.toList

/-- Values a `SalesforceId` can be compared against in `__eq__`: another
`SalesforceId`, a plain string, or anything else. -/
inductive PyVal where
  | sfid (i : SfId)
  | str (s : List Char)
  | otherVal
deriving DecidableEq

/-- Model of `SalesforceId.__eq__`: identity comparison against another
`SalesforceId`, round-trip construction for strings (so a malformed string
raises ValueError), `False` for anything else. -/
def sfIdEq (selfId : SfId) (o : PyVal) : Except PyError Bool :=
  match o with
  | .sfid i => .ok (selfId == i)
  | .str s =>
    match salesforceId s with
    | .ok i => .ok (selfId == i)
    | .error e => .error e
  | .otherVal => .ok false

/-- Model of `SalesforceId.__hash__` = `hash(self.id)`: a deterministic
function of the stored 18-character string. -/
def sfHash (i : SfId) : Nat :=
  i.foldl (fun a c => a * 31 + c.toNat) 7

/-- Model of `str(SalesforceId)` / `__repr__`: the stored 18-character id. -/
def sfIdStr (i : SfId) : String :=
  String.mk i

theorem sfSuffix_length (s : List Char) : (sfSuffix s).length = 3 := by
  simp [sfSuffix]

theorem salesforceId_of_15 (s : List Char) (h : s.length = 15) :
    salesforceId s = .ok (s ++ sfSuffix s) := by
  simp [salesforceId, h]

theorem salesforceId_of_18 (s : List Char) (h : s.length = 18) :
    salesforceId s = .ok s := by
  have h15 : s.length ≠ 15 := by omega
  simp [salesforceId, h, h15]

theorem append_suffix_length (s : List Char) (h : s.length = 15) :
    (s ++ sfSuffix s).length = 18 := by
  simp [h, sfSuffix_length]

/-- C9: for every 15-character identifier string, the Identifier built from
it and the Identifier built from the corresponding 18-character encoding
hold the same stored id (hence are equal and hash equal), and the
Identifier compares equal to either textual encoding given as a plain
string. -/
theorem c9_encoding_independent (s : List Char) (h : s.length = 15) :
    salesforceId s = .ok (s ++ sfSuffix s)
    ∧ salesforceId (s ++ sfSuffix s) = .ok (s ++ sfSuffix s)
    ∧ sfIdEq (s ++ sfSuffix s) (.str s) = .ok true
    ∧ sfIdEq (s ++ sfSuffix s) (.str (s ++ sfSuffix s)) = .ok true
    ∧ (∀ a b, salesforceId s = .ok a → salesforceId (s ++ sfSuffix s) = .ok b →
        a = b ∧ sfHash a = sfHash b ∧ sfIdEq a (.sfid b) = .ok true) := by
  have h18 := append_suffix_length s h
  have e15 := salesforceId_of_15 s h
  have e18 := salesforceId_of_18 _ h18
  refine ⟨e15, e18, ?_, ?_, ?_⟩
  · simp [sfIdEq, e15]
  · simp [sfIdEq, e18]
  · intro a b ha hb
    rw [e15] at ha
    rw [e18] at hb
    have hab : a = b := by
      cases ha; cases hb; rfl
    subst hab
    refine ⟨rfl, rfl, ?_⟩
    simp [sfIdEq]

/-- Witness for C9 at the concrete 15-character id `001000000000000`. -/
theorem c9_encoding_independent_witness :
    ("001000000000000".toList.length = 15)
    ∧ (salesforceId "001000000000000".toList
        = .ok ("001000000000000".toList ++ sfSuffix "001000000000000".toList)
      ∧ salesforceId ("001000000000000".toList ++ sfSuffix "001000000000000".toList)
        = .ok ("001000000000000".toList ++ sfSuffix "001000000000000".toList)
      ∧ sfIdEq ("001000000000000".toList ++ sfSuffix "001000000000000".toList)
          (.str "001000000000000".toList) = .ok true
      ∧ sfIdEq ("001000000000000".toList ++ sfSuffix "001000000000000".toList)
          (.str ("001000000000000".toList ++ sfSuffix "001000000000000".toList)) = .ok true
      ∧ (∀ a b, salesforceId "001000000000000".toList = .ok a →
          salesforceId ("001000000000000".toList ++ sfSuffix "001000000000000".toList) = .ok b →
          a = b ∧ sfHash a = sfHash b ∧ sfIdEq a (.sfid b) = .ok true)) :=
  ⟨by decide, c9_encoding_independent "001000000000000".toList (by decide)⟩

/-- C10: comparing an Identifier for equality against a string whose length
is neither 15 nor 18 raises ValueError instead of returning False, while
comparing against a value that is neither a string nor an Identifier
returns False. -/
theorem c10_eq_bad_length_raises (i : SfId) (s : List Char)
    (h15 : s.length ≠ 15) (h18 : s.length ≠ 18) :
    sfIdEq i (.str s) = .error (.valueError "Salesforce Ids must be 15 or 18 characters.")
    ∧ sfIdEq i .otherVal = .ok false := by
  constructor
  · simp [sfIdEq, salesforceId, h15, h18]
  · rfl

/-- Witness for C10 at the 3-character string `abc`. -/
theorem c10_eq_bad_length_raises_witness :
    ("abc".toList.length ≠ 15 ∧ "abc".toList.length ≠ 18)
    ∧ (sfIdEq "001000000000000AAA".toList (.str "abc".toList)
        = .error (.valueError "Salesforce Ids must be 15 or 18 characters.")
      ∧ sfIdEq "001000000000000AAA".toList .otherVal = .ok false) :=
  ⟨⟨by decide, by decide⟩,
    c10_eq_bad_length_raises "001000000000000AAA".toList "abc".toList (by decide) (by decide)⟩

/-! ## Lookup classification: Step.scan_fields (source lines 128-168) -/

/-- Field descriptor consumed from the Schema Catalog: the entries of
`field_map[f]` that the engine reads (`type`, `referenceTo`, `soapType`).
`get_field_map` is modelled as a total function, as the loader hands the
engine a field scope validated against the describe data. -/
structure FieldDesc where
  ftype : String
  referenceTo : List SObjectName
  soapType : String
deriving DecidableEq

/-- Lines 136-140: lookup fields with at least one referent that is part of
this operation. -/
def allLookups (fm : FieldName → FieldDesc) (sobjects : List SObjectName)
    (fieldScope : List FieldName) : PySet FieldName :=
  ⟨fieldScope.filter (fun f =>
    (fm f).ftype == "reference" && (fm f).referenceTo.any (fun s => sobjects.contains s))⟩

/-- Lines 145-147: lookup fields that are self-lookups. -/
def selfLookups (fm : FieldName → FieldDesc) (sobjects : List SObjectName)
    (sobjectname : SObjectName) (fieldScope : List FieldName) : PySet FieldName :=
  ⟨(allLookups fm sobjects fieldScope).elems.filter (fun f =>
    (fm f).referenceTo.contains sobjectname)⟩

/-- Lines 151-155: descendent lookups, fields that look up to an object
above this one in the operation order. -/
def descendentLookups (fm : FieldName → FieldDesc) (sobjects : List SObjectName)
    (sobjectname : SObjectName) (fieldScope : List FieldName) : PySet FieldName :=
  ⟨(allLookups fm sobjects fieldScope).elems.filter (fun f =>
    (fm f).referenceTo.any (fun refTo =>
      sobjects.contains refTo && decide (sobjects.indexOf refTo < sobjects.indexOf sobjectname)))⟩

/-- Lines 164-168: dependent lookups, fields that look up to an object
below this one in the operation order. -/
def dependentLookups (fm : FieldName → FieldDesc) (sobjects : List SObjectName)
    (sobjectname : SObjectName) (fieldScope : List FieldName) : PySet FieldName :=
  ⟨(allLookups fm sobjects fieldScope).elems.filter (fun f =>
    (fm f).referenceTo.any (fun refTo =>
      sobjects.contains refTo && decide (sobjects.indexOf sobjectname < sobjects.indexOf refTo)))⟩

/-- In-operation target types of a field: the referents that participate in
the operation's declared order. -/
def inOpTargets (fm : FieldName → FieldDesc) (sobjects : List SObjectName)
    (f : FieldName) : List SObjectName :=
  (fm f).referenceTo.filter (fun s => sobjects.contains s)

theorem mem_allLookups (fm : FieldName → FieldDesc) (sobjects : List SObjectName)
    (fieldScope : List FieldName) (f : FieldName) :
    f ∈ (allLookups fm sobjects fieldScope).elems ↔
      f ∈ fieldScope ∧ (fm f).ftype = "reference" ∧ ∃ s ∈ (fm f).referenceTo, s ∈ sobjects := by
  simp [allLookups, List.mem_filter, List.any_eq_true, List.elem_iff, beq_iff_eq,
    and_assoc]

theorem mem_selfLookups (fm : FieldName → FieldDesc) (sobjects : List SObjectName)
    (sobjectname : SObjectName) (fieldScope : List FieldName) (f : FieldName) :
    f ∈ (selfLookups fm sobjects sobjectname fieldScope).elems ↔
      f ∈ (allLookups fm sobjects fieldScope).elems ∧ sobjectname ∈ (fm f).referenceTo := by
  simp [selfLookups, List.mem_filter, List.elem_iff]

theorem mem_descendentLookups (fm : FieldName → FieldDesc) (sobjects : List SObjectName)
    (sobjectname : SObjectName) (fieldScope : List FieldName) (f : FieldName) :
    f ∈ (descendentLookups fm sobjects sobjectname fieldScope).elems ↔
      f ∈ (allLookups fm sobjects fieldScope).elems ∧
        ∃ r ∈ (fm f).referenceTo, r ∈ sobjects ∧
          sobjects.indexOf r < sobjects.indexOf sobjectname := by
  simp [descendentLookups, List.mem_filter, List.any_eq_true, List.elem_iff]

theorem mem_dependentLookups (fm : FieldName → FieldDesc) (sobjects : List SObjectName)
    (sobjectname : SObjectName) (fieldScope : List FieldName) (f : FieldName) :
    f ∈ (dependentLookups fm sobjects sobjectname fieldScope).elems ↔
      f ∈ (allLookups fm sobjects fieldScope).elems ∧
        ∃ r ∈ (fm f).referenceTo, r ∈ sobjects ∧
          sobjects.indexOf sobjectname < sobjects.indexOf r := by
  simp [dependentLookups, List.mem_filter, List.any_eq_true, List.elem_iff]

theorem mem_inOpTargets (fm : FieldName → FieldDesc) (sobjects : List SObjectName)
    (f : FieldName) (t : SObjectName) :
    t ∈ inOpTargets fm sobjects f ↔ t ∈ (fm f).referenceTo ∧ t ∈ sobjects := by
  simp [inOpTargets, List.mem_filter, List.elem_iff]

/-- C5: a reference field in scope whose in-operation targets are all
strictly earlier, all strictly later, or all equal to the owning type's
position is classified into exactly the descendant, dependent, or self
set respectively; and (given the source's stated assumption that there are
no polymorphic self-lookups, lines 142-144) a field landing in more than
one set has in-operation targets on both sides of the owning type. -/
theorem c5_classification_partition (fm : FieldName → FieldDesc)
    (sobjects : List SObjectName) (sobj : SObjectName) (fieldScope : List FieldName)
    (f : FieldName)
    (hmem : sobj ∈ sobjects) (hf : f ∈ fieldScope) (href : (fm f).ftype = "reference")
    (hne : inOpTargets fm sobjects f ≠ [])
    (hps : sobj ∈ (fm f).referenceTo → ∀ t ∈ inOpTargets fm sobjects f, t = sobj) :
    ((∀ t ∈ inOpTargets fm sobjects f, sobjects.indexOf t < sobjects.indexOf sobj) →
      f ∈ (descendentLookups fm sobjects sobj fieldScope).elems
      ∧ f ∉ (dependentLookups fm sobjects sobj fieldScope).elems
      ∧ f ∉ (selfLookups fm sobjects sobj fieldScope).elems)
    ∧ ((∀ t ∈ inOpTargets fm sobjects f, sobjects.indexOf sobj < sobjects.indexOf t) →
      f ∈ (dependentLookups fm sobjects sobj fieldScope).elems
      ∧ f ∉ (descendentLookups fm sobjects sobj fieldScope).elems
      ∧ f ∉ (selfLookups fm sobjects sobj fieldScope).elems)
    ∧ ((∀ t ∈ inOpTargets fm sobjects f, t = sobj) →
      f ∈ (selfLookups fm sobjects sobj fieldScope).elems
      ∧ f ∉ (descendentLookups fm sobjects sobj fieldScope).elems
      ∧ f ∉ (dependentLookups fm sobjects sobj fieldScope).elems)
    ∧ (((f ∈ (selfLookups fm sobjects sobj fieldScope).elems
          ∧ f ∈ (descendentLookups fm sobjects sobj fieldScope).elems)
        ∨ (f ∈ (selfLookups fm sobjects sobj fieldScope).elems
          ∧ f ∈ (dependentLookups fm sobjects sobj fieldScope).elems)
        ∨ (f ∈ (descendentLookups fm sobjects sobj fieldScope).elems
          ∧ f ∈ (dependentLookups fm sobjects sobj fieldScope).elems)) →
      (∃ t1 ∈ inOpTargets fm sobjects f, sobjects.indexOf t1 < sobjects.indexOf sobj)
      ∧ (∃ t2 ∈ inOpTargets fm sobjects f, sobjects.indexOf sobj < sobjects.indexOf t2)) := by
  obtain ⟨t0, ht0⟩ : ∃ t, t ∈ inOpTargets fm sobjects f :=
    List.exists_mem_of_ne_nil _ hne
  have ht0' := (mem_inOpTargets fm sobjects f t0).mp ht0
  have hall : f ∈ (allLookups fm sobjects fieldScope).elems :=
    (mem_allLookups fm sobjects fieldScope f).mpr ⟨hf, href, t0, ht0'.1, ht0'.2⟩
  refine ⟨?_, ?_, ?_, ?_⟩
  · intro hlt
    refine ⟨?_, ?_, ?_⟩
    · exact (mem_descendentLookups fm sobjects sobj fieldScope f).mpr
        ⟨hall, t0, ht0'.1, ht0'.2, hlt t0 ht0⟩
    · intro hdep
      obtain ⟨_, r, hr1, hr2, hr3⟩ := (mem_dependentLookups fm sobjects sobj fieldScope f).mp hdep
      have : r ∈ inOpTargets fm sobjects f := (mem_inOpTargets fm sobjects f r).mpr ⟨hr1, hr2⟩
      exact absurd (hlt r this) (by omega)
    · intro hself
      obtain ⟨_, hs⟩ := (mem_selfLookups fm sobjects sobj fieldScope f).mp hself
      have : sobj ∈ inOpTargets fm sobjects f := (mem_inOpTargets fm sobjects f sobj).mpr ⟨hs, hmem⟩
      exact absurd (hlt sobj this) (by omega)
  · intro hgt
    refine ⟨?_, ?_, ?_⟩
    · exact (mem_dependentLookups fm sobjects sobj fieldScope f).mpr
        ⟨hall, t0, ht0'.1, ht0'.2, hgt t0 ht0⟩
    · intro hdesc
      obtain ⟨_, r, hr1, hr2, hr3⟩ := (mem_descendentLookups fm sobjects sobj fieldScope f).mp hdesc
      have : r ∈ inOpTargets fm sobjects f := (mem_inOpTargets fm sobjects f r).mpr ⟨hr1, hr2⟩
      exact absurd (hgt r this) (by omega)
    · intro hself
      obtain ⟨_, hs⟩ := (mem_selfLookups fm sobjects sobj fieldScope f).mp hself
      have : sobj ∈ inOpTargets fm sobjects f := (mem_inOpTargets fm sobjects f sobj).mpr ⟨hs, hmem⟩
      exact absurd (hgt sobj this) (by omega)
  · intro heq
    have ht0eq := heq t0 ht0
    refine ⟨?_, ?_, ?_⟩
    · exact (mem_selfLookups fm sobjects sobj fieldScope f).mpr ⟨hall, ht0eq ▸ ht0'.1⟩
    · intro hdesc
      obtain ⟨_, r, hr1, hr2, hr3⟩ := (mem_descendentLookups fm sobjects sobj fieldScope f).mp hdesc
      have hrmem : r ∈ inOpTargets fm sobjects f := (mem_inOpTargets fm sobjects f r).mpr ⟨hr1, hr2⟩
      have := heq r hrmem
      subst this
      exact absurd hr3 (by omega)
    · intro hdep
      obtain ⟨_, r, hr1, hr2, hr3⟩ := (mem_dependentLookups fm sobjects sobj fieldScope f).mp hdep
      have hrmem : r ∈ inOpTargets fm sobjects f := (mem_inOpTargets fm sobjects f r).mpr ⟨hr1, hr2⟩
      have := heq r hrmem
      subst this
      exact absurd hr3 (by omega)
  · intro hover
    rcases hover with ⟨hself, hdesc⟩ | ⟨hself, hdep⟩ | ⟨hdesc, hdep⟩
    · obtain ⟨_, hs⟩ := (mem_selfLookups fm sobjects sobj fieldScope f).mp hself
      obtain ⟨_, r, hr1, hr2, hr3⟩ := (mem_descendentLookups fm sobjects sobj fieldScope f).mp hdesc
      have hrmem : r ∈ inOpTargets fm sobjects f := (mem_inOpTargets fm sobjects f r).mpr ⟨hr1, hr2⟩
      have := hps hs r hrmem
      subst this
      exact absurd hr3 (by omega)
    · obtain ⟨_, hs⟩ := (mem_selfLookups fm sobjects sobj fieldScope f).mp hself
      obtain ⟨_, r, hr1, hr2, hr3⟩ := (mem_dependentLookups fm sobjects sobj fieldScope f).mp hdep
      have hrmem : r ∈ inOpTargets fm sobjects f := (mem_inOpTargets fm sobjects f r).mpr ⟨hr1, hr2⟩
      have := hps hs r hrmem
      subst this
      exact absurd hr3 (by omega)
    · obtain ⟨_, r1, h11, h12, h13⟩ :=
        (mem_descendentLookups fm sobjects sobj fieldScope f).mp hdesc
      obtain ⟨_, r2, h21, h22, h23⟩ :=
        (mem_dependentLookups fm sobjects sobj fieldScope f).mp hdep
      exact ⟨⟨r1, (mem_inOpTargets fm sobjects f r1).mpr ⟨h11, h12⟩, h13⟩,
        ⟨r2, (mem_inOpTargets fm sobjects f r2).mpr ⟨h21, h22⟩, h23⟩⟩

/-! ## Load engine (source lines 174-305) -/

/-- Constants of the source class `OutsideLookupBehavior`: `drop-field`,
`include`, `recurse`, `error`. -/
inductive OutsideLB where
  | dropField
  | includeValue
  | recurse
  | errorBehavior
deriving DecidableEq, Repr

/-- Constants of the source class `SelfLookupBehavior`: `trace-all`,
`trace-none`. -/
inductive SelfLB where
  | traceAll
  | traceNone
deriving DecidableEq, Repr

/-- Identifier translation table: `LoadOperation.global_id_map`, a Python
dict from old `SalesforceId` to new `SalesforceId`. Assignment prepends and
lookup takes the first match, which is observationally the dict's
overwrite-on-assign, last-write-wins behavior. -/
abbrev GlobalMap := List (SfId × SfId)

/-- `LoadOperation.register_new_id` (lines 187-188):
`self.global_id_map[old_id] = new_id`. -/
def registerNewId (m : GlobalMap) (oldId newId : SfId) : GlobalMap :=
  (oldId, newId) :: m

/-- `LoadOperation.get_new_id` (lines 190-191):
`self.global_id_map.get(old_id, None)`. -/
def getNewId (m : GlobalMap) (oldId : SfId) : Option SfId :=
  m.lookup oldId

/-- `LoadStep` state: constructor arguments plus the classification sets
that `scan_fields` computes (Python `set` objects). -/
structure LoadStep where
  sobjectname : SObjectName
  fieldScope : List FieldName
  outsideLookupBehavior : OutsideLB
  lookupBehaviors : List (FieldName × OutsideLB)
  self_lookups : PySet FieldName
  dependent_lookups : PySet FieldName
  descendent_lookups : PySet FieldName

/-- `LoadStep.scan_fields` (inherited `Step.scan_fields`) as run by
`LoadOperation.execute`: fills the classification sets from the field map
and the operation's sObject list. -/
def loadScanFields (fm : FieldName → FieldDesc) (sobjects : List SObjectName)
    (step : LoadStep) : LoadStep :=
  { step with
    self_lookups := selfLookups fm sobjects step.sobjectname step.fieldScope
    dependent_lookups := dependentLookups fm sobjects step.sobjectname step.fieldScope
    descendent_lookups := descendentLookups fm sobjects step.sobjectname step.fieldScope }

/-- `LoadStep.get_lookup_behavior_for_field` (lines 216-217). -/
def getLookupBehaviorForField (step : LoadStep) (field : FieldName) : OutsideLB :=
  (step.lookupBehaviors.lookup field).getD step.outsideLookupBehavior

/-- `LoadStep.get_value_for_lookup` (lines 219-234): translate the value
through the table; when no mapping exists apply the field's
outside-lookup behavior. The source's if/elif chain has no branch for
`recurse`, so that behavior falls off the end and returns `None`. -/
def getValueForLookup (step : LoadStep) (m : GlobalMap) (lookup : FieldName)
    (value : Option String) (_recordId : Option String) : Except PyError (Option String) :=
  let b := getLookupBehaviorForField step lookup
  match salesforceIdOpt value with
  | .error e => .error e
  | .ok sid =>
    match getNewId m sid with
    | some mapped => .ok (some (sfIdStr mapped))
    | none =>
      match b with
      | .includeValue => .ok value
      | .errorBehavior =>
        .error (.exception "outside reference not allowed by the extraction configuration")
      | .dropField => .ok (some "")
      | .recurse => .ok none

/-- `LoadStep.populate_lookups` (lines 236-239): dict comprehension keeping
non-lookup fields and routing lookup fields through
`get_value_for_lookup`, with `record['Id']` as the reported record id. -/
def populateLookups (step : LoadStep) (m : GlobalMap) (record : Record)
    (lookups : PySet FieldName) : Except PyError Record :=
  record.mapM (fun kv =>
    if kv.1 ∈ lookups.elems then do
      let rid ← pyGet record "Id"
      let nv ← getValueForLookup step m kv.1 kv.2 rid
      .ok (kv.1, nv)
    else .ok (kv.1, kv.2))

/-- `convert_value` inside `LoadStep.primitivize` (lines 244-260). -/
def convertValue (value : Option String) (fieldType : String) : Except PyError (Option String) :=
  if fieldType = "xsd:boolean" then
    match value with
    | none => .ok (some "false")
    | some s =>
      if s.toLower ∈ ["no", "false", "n", "f", "0", ""] then .ok (some "false")
      else if s.toLower ∈ ["yes", "true", "y", "t", "1"] then .ok (some "true")
      else .error (.valueError "Invalid Boolean value")
  else
    match value with
    | none => .ok none
    | some s =>
      if s.length = 0 then .ok none
      else if fieldType = "tns:ID" then .ok (some s)
      else if fieldType ∈ ["xsd:string", "xsd:date", "xsd:dateTime", "xsd:int", "xsd:double"] then
        .ok (some s)
      else if fieldType ∈ ["base64", "xsd:anyType"] then .error .notImplementedError
      else .ok none

/-- `LoadStep.primitivize` (lines 262-263): apply `convert_value` to every
field using its `soapType` from the field map. -/
def primitivize (fm : FieldName → FieldDesc) (record : Record) : Except PyError Record :=
  record.mapM (fun kv => do
    let v ← convertValue kv.2 (fm kv.1).soapType
    .ok (kv.1, v))

/-- `LoadStep.transform_record` (lines 265-269): apply the operation's
mapper for this sObject when one is configured. -/
def transformRecord (mapper : Option (Record → Record)) (record : Record) : Record :=
  match mapper with
  | some t => t record
  | none => record

/-- Per-record outcome of the remote bulk insert: `r['success']` and
`r['id']` (lowercase in the result). -/
structure InsertResult where
  success : Bool
  newId : Option String
deriving DecidableEq

/-- Per-record outcome of the remote bulk update: `r['success']`. -/
structure UpdateResult where
  success : Bool
deriving DecidableEq

/-- Result loop of `LoadStep.execute` (lines 283-290): for each insert
result in order, register `old -> new` in the translation table on
success, raise `Exception('Failed to load ...')` on the first failure. -/
def registerResultsLoop (sobjectname : SObjectName) (recordsToLoad : List Record)
    (i : Nat) (results : List InsertResult) (m : GlobalMap) : Except PyError GlobalMap :=
  match results with
  | [] => .ok m
  | r :: rest =>
    if r.success then
      match pyIndex recordsToLoad i with
      | .error e => .error e
      | .ok reci =>
        match pyGet reci "Id" with
        | .error e => .error e
        | .ok oldv =>
          match salesforceIdOpt oldv with
          | .error e => .error e
          | .ok oldId =>
            match salesforceIdOpt r.newId with
            | .error e => .error e
            | .ok newId =>
              registerResultsLoop sobjectname recordsToLoad (i + 1) rest
                (registerNewId m oldId newId)
    else
      match pyIndex recordsToLoad i with
      | .error e => .error e
      | .ok reci =>
        match pyGet reci "Id" with
        | .error e => .error e
        | .ok _ => .error (.exception ("Failed to load " ++ sobjectname))

/-- `LoadStep.execute` (lines 271-290): transform, populate descendant
lookups, primitivize each input record, submit the batch (results supplied
by the remote-store collaborator, order-preserving), then run the result
loop. -/
def loadStepExecute (step : LoadStep) (fm : FieldName → FieldDesc)
    (mapper : Option (Record → Record)) (reader : List Record)
    (results : List InsertResult) (m : GlobalMap) : Except PyError GlobalMap := do
  let recordsToLoad ← reader.mapM (fun record => do
    let r1 := transformRecord mapper record
    let r2 ← populateLookups step m r1 step.descendent_lookups
    primitivize fm r2)
  registerResultsLoop step.sobjectname recordsToLoad 0 results m

/-- Specification mirror of `registerResultsLoop`: the list of (old, new)
pairs the loop registers, in order, when it completes without raising.
Used only to state properties of the loop. -/
def registeredPairs (sobjectname : SObjectName) (recordsToLoad : List Record)
    (i : Nat) (results : List InsertResult) : Except PyError (List (SfId × SfId)) :=
  match results with
  | [] => .ok []
  | r :: rest =>
    if r.success then
      match pyIndex recordsToLoad i with
      | .error e => .error e
      | .ok reci =>
        match pyGet reci "Id" with
        | .error e => .error e
        | .ok oldv =>
          match salesforceIdOpt oldv with
          | .error e => .error e
          | .ok oldId =>
            match salesforceIdOpt r.newId with
            | .error e => .error e
            | .ok newId =>
              match registeredPairs sobjectname recordsToLoad (i + 1) rest with
              | .error e => .error e
              | .ok ps => .ok ((oldId, newId) :: ps)
    else
      match pyIndex recordsToLoad i with
      | .error e => .error e
      | .ok reci =>
        match pyGet reci "Id" with
        | .error e => .error e
        | .ok _ => .error (.exception ("Failed to load " ++ sobjectname))

/-- Result loop of `LoadStep.execute_dependent_updates` (lines 303-305):
raise on the first failed update. -/
def checkUpdateResults (sobjectname : SObjectName) (recordsToLoad : List Record)
    (i : Nat) (results : List UpdateResult) : Except PyError Unit :=
  match results with
  | [] => .ok ()
  | r :: rest =>
    if r.success then checkUpdateResults sobjectname recordsToLoad (i + 1) rest
    else .error (.exception ("Failed to execute dependent updates for " ++ sobjectname))

/-- `LoadStep.execute_dependent_updates` (lines 292-305): the function
first evaluates `all_lookups = self.dependent_lookups + self.self_lookups`
on two Python sets, then would populate those lookups on each input
record, keep only the lookup keys, submit the update batch and check the
per-record results. -/
def executeDependentUpdates (step : LoadStep) (m : GlobalMap)
    (reader : List Record) (updateResults : List UpdateResult) :
    Except PyError (List Record) := do
  let allLk ← pySetPlus step.dependent_lookups step.self_lookups
  let recordsToLoad ← reader.mapM (fun record => do
    let r ← populateLookups step m record allLk
    .ok (r.filter (fun kv => kv.1 ∈ allLk.elems)))
  let _ ← checkUpdateResults step.sobjectname recordsToLoad 0 updateResults
  .ok recordsToLoad

/-- Inputs one load step consumes: its configuration, the operation's
mapper for its sObject, its input file, and the per-record results the
remote store returns for its insert and update batches. -/
structure LoadStepInput where
  step : LoadStep
  mapper : Option (Record → Record)
  reader : List Record
  insertResults : List InsertResult
  updateResults : List UpdateResult

/-- Scanning pass of `LoadOperation.execute`: each step's `scan_fields`
run before its insert phase (line 196); the computed sets persist into
phase 2. -/
def scanInputs (fm : FieldName → FieldDesc) (sobjects : List SObjectName)
    (inputs : List LoadStepInput) : List LoadStepInput :=
  inputs.map (fun inp => { inp with step := loadScanFields fm sobjects inp.step })

/-- First loop of `LoadOperation.execute` (lines 195-198): every step's
insert phase, in declared order, threading the translation table. -/
def loadPhase1 (fm : FieldName → FieldDesc) (inputs : List LoadStepInput)
    (m : GlobalMap) : Except PyError GlobalMap :=
  inputs.foldlM (fun acc inp =>
    loadStepExecute inp.step fm inp.mapper inp.reader inp.insertResults acc) m

/-- Second loop of `LoadOperation.execute` (lines 200-202): every step's
dependent-update phase, in the same order, reading the completed table. -/
def loadPhase2 (inputs : List LoadStepInput) (m1 : GlobalMap) :
    Except PyError (List (List Record)) :=
  inputs.mapM (fun inp =>
    executeDependentUpdates inp.step m1 inp.reader inp.updateResults)

/-- `LoadOperation.execute` (lines 193-202): scan fields, run every step's
insert phase in declared order, then run every step's dependent-update
phase in the same order. -/
def loadOperationExecute (fm : FieldName → FieldDesc) (sobjects : List SObjectName)
    (inputs : List LoadStepInput) (m : GlobalMap) : Except PyError GlobalMap :=
  match loadPhase1 fm (scanInputs fm sobjects inputs) m with
  | .error e => .error e
  | .ok m1 =>
    match loadPhase2 (scanInputs fm sobjects inputs) m1 with
    | .error e => .error e
    | .ok _ => .ok m1

/-! ## Concrete data shared by witness and counterexample theorems -/

/-- Concrete field map used by witness theorems: an id field, a descendant
lookup, a self-lookup, and plain string fields. -/
def sampleFieldMap : FieldName → FieldDesc := fun f =>
  if f = "Id" then ⟨"id", [], "tns:ID"⟩
  else if f = "AccountId" then ⟨"reference", ["Account"], "tns:ID"⟩
  else if f = "ReportsToId" then ⟨"reference", ["Contact"], "tns:ID"⟩
  else ⟨"string", [], "xsd:string"⟩

/-- Witness for C5: in the declared order Account, Contact, the Contact
field AccountId (targeting only Account, the earlier type) is classified
as exactly a descendant lookup. -/
theorem c5_classification_partition_witness :
    (("Contact" : SObjectName) ∈ (["Account", "Contact"] : List SObjectName)
      ∧ ("AccountId" : FieldName) ∈ (["Name", "AccountId", "ReportsToId"] : List FieldName)
      ∧ (sampleFieldMap "AccountId").ftype = "reference"
      ∧ inOpTargets sampleFieldMap ["Account", "Contact"] "AccountId" ≠ []
      ∧ (∀ t ∈ inOpTargets sampleFieldMap ["Account", "Contact"] "AccountId",
          List.indexOf t ["Account", "Contact"] < List.indexOf "Contact" ["Account", "Contact"]))
    ∧ ("AccountId"
        ∈ (descendentLookups sampleFieldMap ["Account", "Contact"] "Contact"
            ["Name", "AccountId", "ReportsToId"]).elems
      ∧ "AccountId"
        ∉ (dependentLookups sampleFieldMap ["Account", "Contact"] "Contact"
            ["Name", "AccountId", "ReportsToId"]).elems
      ∧ "AccountId"
        ∉ (selfLookups sampleFieldMap ["Account", "Contact"] "Contact"
            ["Name", "AccountId", "ReportsToId"]).elems) :=
  ⟨⟨by decide, by decide, by decide, by decide, by decide⟩,
    (c5_classification_partition sampleFieldMap ["Account", "Contact"] "Contact"
      ["Name", "AccountId", "ReportsToId"] "AccountId"
      (by decide) (by decide) (by decide) (by decide) (by decide)).1 (by decide)⟩

/-- C1: the dependent-update phase is ordered after all insert phases, but
`execute_dependent_updates` always raises TypeError at
`self.dependent_lookups + self.self_lookups` (line 296, `+` on two Python
sets), so no phase-2 update batch is ever submitted and any load operation
with at least one step fails instead of returning. -/
theorem c1_dependent_update_phase_crashes :
    (∀ (step : LoadStep) (m : GlobalMap) (reader : List Record)
      (res : List UpdateResult),
      executeDependentUpdates step m reader res
        = .error (.typeError "unsupported operand types for +: set and set"))
    ∧ (∀ (fm : FieldName → FieldDesc) (sobjects : List SObjectName)
        (inp : LoadStepInput) (inputs : List LoadStepInput) (m g : GlobalMap),
        loadOperationExecute fm sobjects (inp :: inputs) m ≠ .ok g) := by
  have hedu : ∀ (step : LoadStep) (m : GlobalMap) (reader : List Record)
      (res : List UpdateResult),
      executeDependentUpdates step m reader res
        = .error (.typeError "unsupported operand types for +: set and set") :=
    fun _ _ _ _ => rfl
  refine ⟨hedu, ?_⟩
  intro fm sobjects inp inputs m g hok
  have he : ∀ m1, loadPhase2 (scanInputs fm sobjects (inp :: inputs)) m1
      = .error (.typeError "unsupported operand types for +: set and set") := by
    intro m1
    unfold loadPhase2 scanInputs
    simp only [List.map_cons, List.mapM_cons, hedu]
    rfl
  unfold loadOperationExecute at hok
  simp only [he] at hok
  cases hfold : loadPhase1 fm (scanInputs fm sobjects (inp :: inputs)) m with
  | error e => rw [hfold] at hok; exact Except.noConfusion hok
  | ok m1 => rw [hfold] at hok; exact Except.noConfusion hok

/-- Step data used by the C3 evaluation: a plain Account load with no
lookup fields. -/
def c3Step : LoadStep :=
  ⟨"Account", ["Name"], .includeValue, [], ⟨[]⟩, ⟨[]⟩, ⟨[]⟩⟩

/-- Input file contents used by the C3 evaluation. -/
def c3Reader : List Record :=
  [[("Name", some "Test"), ("Id", some "001000000000000")],
   [("Name", some "Test 2"), ("Id", some "001000000000001")]]

/-- Store results used by the C3 evaluation: the first record is rejected,
the second accepted. -/
def c3Results : List InsertResult :=
  [⟨false, none⟩, ⟨true, some "001000000000003"⟩]

/-- C3: a per-record insert failure is fatal in the code, not collected: on
the first rejected record `LoadStep.execute` raises
`Exception('Failed to load ...')`, aborting the step (so the sibling
record is never registered and no per-step error map exists), and a
rejected update in `execute_dependent_updates` likewise raises. -/
theorem c3_insert_failure_is_fatal :
    loadStepExecute c3Step sampleFieldMap none c3Reader c3Results []
      = .error (.exception "Failed to load Account")
    ∧ checkUpdateResults "Account" [] 0 [⟨false⟩]
      = .error (.exception "Failed to execute dependent updates for Account") := by
  constructor
  · rfl
  · rfl

/-! ## C2: translation table semantics -/

theorem lookup_eq_none_of_not_mem_keys {l : GlobalMap} {o : SfId}
    (h : o ∉ l.map Prod.fst) : l.lookup o = none := by
  induction l with
  | nil => rfl
  | cons p l ih =>
    simp only [List.map_cons, List.mem_cons, not_or] at h
    have hne : (o == p.1) = false := beq_eq_false_iff_ne.mpr h.1
    obtain ⟨a, b⟩ := p
    simp only [List.lookup]
    rw [hne]
    exact ih h.2

theorem lookup_eq_some_of_mem_nodup {l : GlobalMap} {o n : SfId}
    (hnd : (l.map Prod.fst).Nodup) (h : (o, n) ∈ l) : l.lookup o = some n := by
  induction l with
  | nil => exact absurd h (List.not_mem_nil _)
  | cons p l ih =>
    obtain ⟨a, b⟩ := p
    simp only [List.map_cons, List.nodup_cons] at hnd
    rcases List.mem_cons.mp h with heq | hmem
    · have h1 : o = a := congrArg Prod.fst heq
      have h2 : n = b := congrArg Prod.snd heq
      subst h1
      subst h2
      simp [List.lookup]
    · have hne : o ≠ a := by
        rintro rfl
        exact hnd.1 (List.mem_map_of_mem Prod.fst hmem)
      simp only [List.lookup]
      rw [beq_eq_false_iff_ne.mpr hne]
      exact ih hnd.2 hmem

theorem lookup_append_some {l1 l2 : GlobalMap} {k v : SfId}
    (h : l1.lookup k = some v) : (l1 ++ l2).lookup k = some v := by
  induction l1 with
  | nil => simp [List.lookup] at h
  | cons p l ih =>
    obtain ⟨a, b⟩ := p
    simp only [List.lookup, List.cons_append] at h ⊢
    cases hb : (k == a) with
    | true => rw [hb] at h; exact h
    | false => rw [hb] at h; exact ih h

theorem lookup_append_none {l1 l2 : GlobalMap} {k : SfId}
    (h : l1.lookup k = none) : (l1 ++ l2).lookup k = l2.lookup k := by
  induction l1 with
  | nil => rfl
  | cons p l ih =>
    obtain ⟨a, b⟩ := p
    simp only [List.lookup, List.cons_append] at h ⊢
    cases hb : (k == a) with
    | true => rw [hb] at h; exact Option.noConfusion h
    | false => rw [hb] at h; exact ih h

theorem foldl_registerNewId (ps : List (SfId × SfId)) (m : GlobalMap) :
    ps.foldl (fun acc p => registerNewId acc p.1 p.2) m = ps.reverse ++ m := by
  induction ps generalizing m with
  | nil => rfl
  | cons p ps ih =>
    rw [List.foldl_cons, ih, List.reverse_cons, List.append_assoc]
    rfl

theorem registerResultsLoop_of_pairs (sobj : SObjectName) (recs : List Record)
    (results : List InsertResult) : ∀ (i : Nat) (m : GlobalMap) (ps : List (SfId × SfId)),
    registeredPairs sobj recs i results = .ok ps →
    registerResultsLoop sobj recs i results m
      = .ok (ps.foldl (fun acc p => registerNewId acc p.1 p.2) m) := by
  induction results with
  | nil =>
    intro i m ps h
    simp only [registeredPairs] at h
    cases h
    rfl
  | cons r rest ih =>
    intro i m ps h
    by_cases hs : r.success
    · simp only [registeredPairs, hs, if_true] at h
      simp only [registerResultsLoop, hs, if_true]
      cases hpi : pyIndex recs i with
      | error e => rw [hpi] at h; exact Except.noConfusion h
      | ok reci =>
        simp only [hpi] at h ⊢
        cases hpg : pyGet reci "Id" with
        | error e => rw [hpg] at h; exact Except.noConfusion h
        | ok oldv =>
          simp only [hpg] at h ⊢
          cases hso : salesforceIdOpt oldv with
          | error e => rw [hso] at h; exact Except.noConfusion h
          | ok oldId =>
            simp only [hso] at h ⊢
            cases hsn : salesforceIdOpt r.newId with
            | error e => rw [hsn] at h; exact Except.noConfusion h
            | ok newId =>
              simp only [hsn] at h ⊢
              cases hrp : registeredPairs sobj recs (i + 1) rest with
              | error e => rw [hrp] at h; exact Except.noConfusion h
              | ok ps' =>
                rw [hrp] at h
                cases h
                rw [List.foldl_cons]
                exact ih (i + 1) (registerNewId m oldId newId) ps' hrp
    · simp only [registeredPairs, hs, if_false] at h
      cases hpi : pyIndex recs i with
      | error e => rw [hpi] at h; exact Except.noConfusion h
      | ok reci =>
        simp only [hpi] at h
        cases hpg : pyGet reci "Id" with
        | error e => rw [hpg] at h; exact Except.noConfusion h
        | ok oldv => rw [hpg] at h; exact Except.noConfusion h

theorem registeredPairs_length (sobj : SObjectName) (recs : List Record)
    (results : List InsertResult) : ∀ (i : Nat) (ps : List (SfId × SfId)),
    registeredPairs sobj recs i results = .ok ps →
    ps.length = (results.filter (fun r => r.success)).length := by
  induction results with
  | nil =>
    intro i ps h
    simp only [registeredPairs] at h
    cases h
    rfl
  | cons r rest ih =>
    intro i ps h
    by_cases hs : r.success
    · simp only [registeredPairs, hs, if_true] at h
      cases hpi : pyIndex recs i with
      | error e => simp only [hpi] at h; exact Except.noConfusion h
      | ok reci =>
        simp only [hpi] at h
        cases hpg : pyGet reci "Id" with
        | error e => simp only [hpg] at h; exact Except.noConfusion h
        | ok oldv =>
          simp only [hpg] at h
          cases hso : salesforceIdOpt oldv with
          | error e => simp only [hso] at h; exact Except.noConfusion h
          | ok oldId =>
            simp only [hso] at h
            cases hsn : salesforceIdOpt r.newId with
            | error e => simp only [hsn] at h; exact Except.noConfusion h
            | ok newId =>
              simp only [hsn] at h
              cases hrp : registeredPairs sobj recs (i + 1) rest with
              | error e => simp only [hrp] at h; exact Except.noConfusion h
              | ok ps' =>
                simp only [hrp] at h
                cases h
                simp [List.filter_cons, hs, ih (i + 1) ps' hrp]
    · simp only [registeredPairs, hs, if_false] at h
      cases hpi : pyIndex recs i with
      | error e => simp only [hpi] at h; exact Except.noConfusion h
      | ok reci =>
        simp only [hpi] at h
        cases hpg : pyGet reci "Id" with
        | error e => simp only [hpg] at h; exact Except.noConfusion h
        | ok oldv => simp only [hpg] at h; exact Except.noConfusion h

/-- C2: when the insert-result loop registers pairs whose old identifiers
are pairwise distinct (one record per identifier), the loop creates
exactly one translation entry per successful insert, a registered mapping
is returned unchanged by `get_new_id`, and identifiers never registered
read through to the prior table (in particular `none` when absent):
no later registration of the load touches an existing entry. -/
theorem c2_translation_table_append_only (sobj : SObjectName) (recs : List Record)
    (results : List InsertResult) (m : GlobalMap) (ps : List (SfId × SfId))
    (hpairs : registeredPairs sobj recs 0 results = .ok ps)
    (hnd : (ps.map Prod.fst).Nodup) :
    registerResultsLoop sobj recs 0 results m = .ok (ps.reverse ++ m)
    ∧ ps.length = (results.filter (fun r => r.success)).length
    ∧ (∀ o n, (o, n) ∈ ps → getNewId (ps.reverse ++ m) o = some n)
    ∧ (∀ o, o ∉ ps.map Prod.fst → getNewId (ps.reverse ++ m) o = getNewId m o) := by
  refine ⟨?_, registeredPairs_length sobj recs results 0 ps hpairs, ?_, ?_⟩
  · rw [registerResultsLoop_of_pairs sobj recs results 0 m ps hpairs, foldl_registerNewId]
  · intro o n hmem
    have hndrev : (ps.reverse.map Prod.fst).Nodup := by
      rw [List.map_reverse]
      exact List.nodup_reverse.mpr hnd
    have : ps.reverse.lookup o = some n :=
      lookup_eq_some_of_mem_nodup hndrev (List.mem_reverse.mpr hmem)
    exact lookup_append_some this
  · intro o hnot
    have : ps.reverse.lookup o = none := by
      apply lookup_eq_none_of_not_mem_keys
      rw [List.map_reverse]
      intro hc
      exact hnot (List.mem_reverse.mp hc)
    exact lookup_append_none this

/-- Witness for C2: one successful insert of the record with old id
001000000000000 and new id 001000000000002. -/
theorem c2_translation_table_append_only_witness :
    (registeredPairs "Account" [[("Id", some "001000000000000")]] 0
        [⟨true, some "001000000000002"⟩]
      = .ok [("001000000000000AAA".toList, "001000000000002AAA".toList)]
      ∧ (([("001000000000000AAA".toList, "001000000000002AAA".toList)].map
          Prod.fst).Nodup))
    ∧ (registerResultsLoop "Account" [[("Id", some "001000000000000")]] 0
        [⟨true, some "001000000000002"⟩] []
        = .ok ([("001000000000000AAA".toList, "001000000000002AAA".toList)].reverse ++ [])
      ∧ [("001000000000000AAA".toList, "001000000000002AAA".toList)].length
        = (([⟨true, some "001000000000002"⟩] : List InsertResult).filter
            (fun r => r.success)).length
      ∧ (∀ o n, (o, n) ∈ [("001000000000000AAA".toList, "001000000000002AAA".toList)] →
          getNewId ([("001000000000000AAA".toList, "001000000000002AAA".toList)].reverse ++ [])
            o = some n)
      ∧ (∀ o, o ∉ [("001000000000000AAA".toList, "001000000000002AAA".toList)].map Prod.fst →
          getNewId ([("001000000000000AAA".toList, "001000000000002AAA".toList)].reverse ++ [])
            o = getNewId [] o)) :=
  ⟨⟨by rfl, by decide⟩,
    c2_translation_table_append_only "Account" [[("Id", some "001000000000000")]]
      [⟨true, some "001000000000002"⟩] []
      [("001000000000000AAA".toList, "001000000000002AAA".toList)]
      (by rfl) (by decide)⟩

/-! ## Extraction engine (source lines 308-559)

Extraction behaviors are carried as the source's string constants
(`ExtractionScope`, `SelfLookupBehavior`, `OutsideLookupBehavior` classes):
`all` / `query` / `some` / `children`, `trace-all` / `trace-none`,
`drop-field` / `include` / `recurse` / `error`; `lookup_behaviors` is one
dict holding either kind, exactly as in the source. -/

/-- Mutable registries of `ExtractOperation`: per-type extracted ids,
per-type required (not yet resolved) ids, and the per-type output sink
rows. A type absent from a Python dict reads as the empty set. -/
structure ExtractState where
  extracted : SObjectName → Finset SfId
  required : SObjectName → Finset SfId
  output : SObjectName → List Record

/-- `ExtractOperation.get_extracted_ids` (lines 346-347). -/
def getExtractedIds (s : ExtractState) (sobj : SObjectName) : Finset SfId :=
  s.extracted sobj

/-- `ExtractOperation.add_dependency` (lines 326-330): register a required
id unless it was already extracted for that type. -/
def addDependency (s : ExtractState) (sobj : SObjectName) (id : SfId) : ExtractState :=
  if id ∈ s.extracted sobj then s
  else { s with required := Function.update s.required sobj (insert id (s.required sobj)) }

/-- `ExtractOperation.get_dependencies` (lines 332-333). -/
def getDependencies (s : ExtractState) (sobj : SObjectName) : Finset SfId :=
  s.required sobj

/-- `ExtractOperation.get_sobject_ids_for_reference` (lines 335-344):
accumulate the extracted ids of every potential target type of a field. -/
def getSobjectIdsForReference (s : ExtractState) (fm : FieldName → FieldDesc)
    (field : FieldName) : Finset SfId :=
  (fm field).referenceTo.foldl (fun ids name => ids ∪ s.extracted name) ∅

/-- `ExtractOperation.store_result` (lines 349-362): convert the record's
Id, write the (mapper-transformed) record to the sink and add the id to
the extracted set only when unseen, then clear it from the required set
when present. -/
def opStoreResult (mappers : SObjectName → Option (Record → Record))
    (s : ExtractState) (sobj : SObjectName) (record : Record) :
    Except PyError ExtractState :=
  match pyGet record "Id" with
  | .error e => .error e
  | .ok idv =>
    match salesforceIdOpt idv with
    | .error e => .error e
    | .ok sid =>
      let s1 :=
        if sid ∈ s.extracted sobj then s
        else { s with
          extracted := Function.update s.extracted sobj (insert sid (s.extracted sobj))
          output := Function.update s.output sobj
            (s.output sobj ++ [transformRecord (mappers sobj) record]) }
      let s2 :=
        if sid ∈ s1.required sobj then
          { s1 with required := Function.update s1.required sobj ((s1.required sobj).erase sid) }
        else s1
      .ok s2

/-- `ExtractionStep` state: constructor arguments plus the classification
sets `scan_fields` computes. -/
structure ExtractionStep where
  sobjectname : SObjectName
  scope : String
  fieldScope : List FieldName
  selfLookupBehavior : String
  outsideLookupBehavior : String
  lookupBehaviors : List (FieldName × String)
  self_lookups : PySet FieldName
  dependent_lookups : PySet FieldName
  descendent_lookups : PySet FieldName

/-- `ExtractionStep.get_self_lookup_behavior_for_field` (lines 377-378). -/
def getSelfLookupBehaviorForField (st : ExtractionStep) (f : FieldName) : String :=
  (st.lookupBehaviors.lookup f).getD st.selfLookupBehavior

/-- `ExtractionStep.get_outside_lookup_behavior_for_field` (lines 380-381). -/
def getOutsideLookupBehaviorForField (st : ExtractionStep) (f : FieldName) : String :=
  (st.lookupBehaviors.lookup f).getD st.outsideLookupBehavior

/-- Remote record store: the org's rows per sObject, consumed through the
spec's BulkQuery interface. -/
structure Org where
  records : SObjectName → List Record

/-- Context an extraction step runs against: the cached describe data, the
operation's sObject list, the key-prefix map backing
`get_sobject_name_for_id`, the configured mappers, and the remote store. -/
structure ExtractCtx where
  fm : FieldName → FieldDesc
  sobjectList : List SObjectName
  keyPrefixMap : List (String × SObjectName)
  mappers : SObjectName → Option (Record → Record)
  org : Org

/-- `Operation.get_sobject_name_for_id` (lines 79-86): look the first three
characters of the id up in the key-prefix map; a missing prefix raises
KeyError. -/
def getSobjectNameForId (kpm : List (String × SObjectName)) (id : String) :
    Except PyError SObjectName :=
  match kpm.lookup (String.mk (id.toList.take 3)) with
  | some n => .ok n
  | none => .error (.keyError (String.mk (id.toList.take 3)))

/-- First loop of `ExtractionStep.store_result` (lines 450-452): register a
dependency on this type for each traced, non-null self-lookup value. -/
def storeSelfLookupDeps (st : ExtractionStep) (result : Record) :
    ExtractState → List FieldName → Except PyError ExtractState
  | s, [] => .ok s
  | s, l :: rest =>
    if getSelfLookupBehaviorForField st l ≠ "trace-none" then
      match pyGet result l with
      | .error e => .error e
      | .ok none => storeSelfLookupDeps st result s rest
      | .ok (some sv) =>
        match salesforceId sv.toList with
        | .error e => .error e
        | .ok sid => storeSelfLookupDeps st result (addDependency s st.sobjectname sid) rest
    else storeSelfLookupDeps st result s rest

/-- Second loop of `ExtractionStep.store_result` (lines 457-480): register
dependencies from dependent lookups, resolving polymorphic targets through
the key-prefix map and skipping out-of-operation or up-hierarchy values. -/
def storeDependentDeps (st : ExtractionStep) (fm : FieldName → FieldDesc)
    (sobjectList : List SObjectName) (kpm : List (String × SObjectName))
    (result : Record) : ExtractState → List FieldName → Except PyError ExtractState
  | s, [] => .ok s
  | s, f :: rest =>
    match pyGet result f with
    | .error e => .error e
    | .ok none => storeDependentDeps st fm sobjectList kpm result s rest
    | .ok (some v) =>
      if (fm f).referenceTo.length > 1 then
        match getSobjectNameForId kpm v with
        | .error e => .error e
        | .ok target =>
          if target ∉ sobjectList then
            storeDependentDeps st fm sobjectList kpm result s rest
          else if sobjectList.indexOf target < sobjectList.indexOf st.sobjectname then
            storeDependentDeps st fm sobjectList kpm result s rest
          else
            match salesforceId v.toList with
            | .error e => .error e
            | .ok sid =>
              storeDependentDeps st fm sobjectList kpm result (addDependency s target sid) rest
      else
        match pyIndex (fm f).referenceTo 0 with
        | .error e => .error e
        | .ok target =>
          match salesforceId v.toList with
          | .error e => .error e
          | .ok sid =>
            storeDependentDeps st fm sobjectList kpm result (addDependency s target sid) rest

/-- Third loop of `ExtractionStep.store_result` (lines 484-505): for each
descendant lookup whose value was not extracted for its target type, apply
the outside-lookup behavior — `drop-field` deletes the field from the
record, `include` keeps it, `error` raises, `recurse` raises
NotImplementedError. Membership against the extracted set follows Python
set hashing: only the stored 18-character form can match. -/
def applyOutsideBehaviors (st : ExtractionStep) (fm : FieldName → FieldDesc)
    (kpm : List (String × SObjectName)) (s : ExtractState) :
    Record → List FieldName → Except PyError Record
  | result, [] => .ok result
  | result, f :: rest =>
    match pyGet result f with
    | .error e => .error e
    | .ok lv =>
      match (if (fm f).referenceTo.length = 1 then pyIndex (fm f).referenceTo 0
             else match lv with
                  | none => .error (.typeError "NoneType object is not subscriptable")
                  | some v => getSobjectNameForId kpm v) with
      | .error e => .error e
      | .ok target =>
        if (match lv with
            | none => false
            | some v => decide (v.toList ∈ s.extracted target)) then
          applyOutsideBehaviors st fm kpm s result rest
        else
          let behavior := getOutsideLookupBehaviorForField st f
          if behavior = "drop-field" then
            applyOutsideBehaviors st fm kpm s (pyDel result f) rest
          else if behavior = "include" then
            applyOutsideBehaviors st fm kpm s result rest
          else if behavior = "error" then
            .error (.exception "outside reference not allowed by the extraction configuration")
          else if behavior = "recurse" then
            .error .notImplementedError
          else
            applyOutsideBehaviors st fm kpm s result rest

/-- `ExtractionStep.store_result` (lines 442-509): self-lookup and
dependent-lookup dependency registration, outside-lookup handling on
descendant lookups, then the operation-level store of the (possibly
trimmed) record. -/
def stepStoreResult (ctx : ExtractCtx) (st : ExtractionStep) (s : ExtractState)
    (result : Record) : Except PyError ExtractState :=
  match storeSelfLookupDeps st result s st.self_lookups.elems with
  | .error e => .error e
  | .ok s1 =>
    match storeDependentDeps st ctx.fm ctx.sobjectList ctx.keyPrefixMap result s1
        st.dependent_lookups.elems with
    | .error e => .error e
    | .ok s2 =>
      match applyOutsideBehaviors st ctx.fm ctx.keyPrefixMap s2 result
          st.descendent_lookups.elems with
      | .error e => .error e
      | .ok result2 => opStoreResult ctx.mappers s2 st.sobjectname result2

/-! ## Batch planner: `perform_id_field_pass` chunking (lines 530-553) -/

/-- `Step.get_field_list` (lines 125-126): comma-joined field scope. -/
def getFieldList (fieldScope : List FieldName) : String :=
  String.intercalate ", " fieldScope

/-- Line 537: `max_len = 4000 - len('WHERE {} IN ()'.format(field_list))`.
The skeleton is 12 characters plus the field list; Nat subtraction
truncates at zero exactly where the Python int goes negative, and there
the strict-less chunk condition is likewise always false. -/
def maxLenFor (fieldList : String) : Nat :=
  4000 - (12 + fieldList.length)

/-- Inner while loop of `perform_id_field_pass` (lines 545-546): keep
popping ids into the chunk while the encoded id list is shorter than
`max_len - 22`; each added id contributes `, 'x'`, 4 characters plus the
id. Returns the ids appended to the chunk and the ids left over. -/
def buildChunk (maxLen : Nat) : Nat → List String → List String × List String
  | _, [] => ([], [])
  | curLen, x :: rest =>
    if curLen < maxLen - 22 then
      let p := buildChunk maxLen (curLen + (4 + x.length)) rest
      (x :: p.1, p.2)
    else ([], x :: rest)

theorem buildChunk_snd_length (maxLen : Nat) : ∀ (n : Nat) (l : List String),
    (buildChunk maxLen n l).2.length ≤ l.length := by
  intro n l
  induction l generalizing n with
  | nil => simp [buildChunk]
  | cons x rest ih =>
    simp only [buildChunk]
    by_cases h : n < maxLen - 22
    · simp only [h, if_true]
      exact le_trans (ih _) (Nat.le_succ _)
    · simp only [h, if_false]
      exact le_refl _

/-- Outer while loop of `perform_id_field_pass` (lines 539-546): pop the
first id (`'x'`, 2 characters plus the id) and fill the rest of the chunk
under the length condition; repeat until the id set is drained. -/
def chunkIds (maxLen : Nat) : List String → List (List String)
  | [] => []
  | x :: rest =>
    (x :: (buildChunk maxLen (2 + x.length) rest).1)
      :: chunkIds maxLen (buildChunk maxLen (2 + x.length) rest).2
termination_by l => l.length
decreasing_by
  simp only [List.length_cons]
  exact Nat.lt_succ_of_le (buildChunk_snd_length maxLen (2 + x.length) rest)

/-- Encoded length of a chunk's id list, as `perform_id_field_pass` builds
it: the first id rendered `'x'`, every further id rendered `, 'x'`. -/
def idListLen : List String → Nat
  | [] => 0
  | x :: rest => (2 + x.length) + (rest.map (fun y => 4 + y.length)).sum

/-- `BulkQuery` with an identifier-set filter, consumed per the spec's
remote-store interface: the org rows of this sObject whose filter-field
value is one of the chunk's encoded ids. -/
def orgQueryByField (org : Org) (sobj : SObjectName) (field : FieldName)
    (idStrs : List String) : List Record :=
  (org.records sobj).filter (fun r =>
    match r.lookup field with
    | some (some v) => idStrs.contains v
    | _ => false)

/-- Per-record half of the store loop (lines 552-553) shared by all query
passes: hand each returned record to the step's `store_result`. -/
def storeResults (ctx : ExtractCtx) (st : ExtractionStep) :
    List Record → ExtractState → Except PyError ExtractState
  | [], s => .ok s
  | r :: rs, s =>
    match stepStoreResult ctx st s r with
    | .error e => .error e
    | .ok s1 => storeResults ctx st rs s1

/-- Chunk loop of `perform_id_field_pass` (lines 539-553): query each
chunk and store every returned record. -/
def processChunks (ctx : ExtractCtx) (st : ExtractionStep) (idField : FieldName) :
    List (List String) → ExtractState → Except PyError ExtractState
  | [], s => .ok s
  | c :: cs, s =>
    match storeResults ctx st (orgQueryByField ctx.org st.sobjectname idField c) s with
    | .error e => .error e
    | .ok s1 => processChunks ctx st idField cs s1

/-- `ExtractionStep.perform_id_field_pass` (lines 530-553): no-op on an
empty id set, otherwise chunk the rendered ids and run the chunk loop. -/
def performIdFieldPass (ctx : ExtractCtx) (st : ExtractionStep) (idField : FieldName)
    (idSet : Finset SfId) (s : ExtractState) : Except PyError ExtractState :=
  if idSet = ∅ then .ok s
  else
    processChunks ctx st idField
      (chunkIds (maxLenFor (getFieldList st.fieldScope))
        ((idSet.sort (· ≤ ·)).map sfIdStr)) s

/-- `ExtractionStep.perform_lookup_pass` (lines 555-559). -/
def performLookupPass (ctx : ExtractCtx) (st : ExtractionStep) (field : FieldName)
    (s : ExtractState) : Except PyError ExtractState :=
  performIdFieldPass ctx st field (getSobjectIdsForReference s ctx.fm field) s

/-- `ExtractionStep.resolve_registered_dependencies` (lines 511-517): one
id pass over the currently required ids, then a fatal error when any of
them is still required. -/
def resolveRegisteredDependencies (ctx : ExtractCtx) (st : ExtractionStep)
    (s : ExtractState) : Except PyError ExtractState :=
  let preDeps := getDependencies s st.sobjectname
  match performIdFieldPass ctx st "Id" preDeps s with
  | .error e => .error e
  | .ok s1 =>
    if (getDependencies s1 st.sobjectname ∩ preDeps).card > 0 then
      .error (.exception ("Unable to resolve dependencies for sObject " ++ st.sobjectname))
    else .ok s1

/-- Children passes of one tracing iteration (lines 431-432): a lookup
pass per self-lookup field. -/
def selfLookupChildrenPasses (ctx : ExtractCtx) (st : ExtractionStep) :
    List FieldName → ExtractState → Except PyError ExtractState
  | [], s => .ok s
  | l :: rest, s =>
    match performLookupPass ctx st l s with
    | .error e => .error e
    | .ok s1 => selfLookupChildrenPasses ctx st rest s1

/-- One iteration of the tracing loop (lines 427-435): children passes for
every self-lookup, then the parents pass
(`resolve_registered_dependencies`). -/
def tracePass (ctx : ExtractCtx) (st : ExtractionStep) (s : ExtractState) :
    Except PyError ExtractState :=
  match selfLookupChildrenPasses ctx st st.self_lookups.elems s with
  | .error e => .error e
  | .ok s1 => resolveRegisteredDependencies ctx st s1

/-- The `while True` tracing loop (lines 427-440), with explicit fuel
bounding the number of iterations: compare the extracted count for this
type before and after an iteration and stop when it did not grow. `none`
means the fuel ran out before the loop exited. -/
def traceLoopF (ctx : ExtractCtx) (st : ExtractionStep) :
    Nat → ExtractState → Option (Except PyError ExtractState)
  | 0, _ => none
  | fuel + 1, s =>
    match tracePass ctx st s with
    | .error e => some (.error e)
    | .ok s1 =>
      if (s1.extracted st.sobjectname).card = (s.extracted st.sobjectname).card then
        some (.ok s1)
      else traceLoopF ctx st fuel s1

/-- Guard of the tracing stage (`ExtractionStep.execute`, lines 416-417):
the loop runs only for a step with self-lookups, behavior trace-all and
scope other than ALL_RECORDS. -/
def selfLookupTracing (ctx : ExtractCtx) (st : ExtractionStep) (fuel : Nat)
    (s : ExtractState) : Option (Except PyError ExtractState) :=
  if st.self_lookups.elems ≠ [] ∧ st.selfLookupBehavior = "trace-all" ∧ st.scope ≠ "all"
  then traceLoopF ctx st fuel s
  else some (.ok s)

/-- The ids the org holds for an sObject: the normalized `Id` values of
its rows. The extracted set stays inside this set plus whatever was
already extracted, which bounds the tracing loop. -/
def orgIds (org : Org) (sobj : SObjectName) : Finset SfId :=
  ((org.records sobj).filterMap (fun r =>
    match r.lookup "Id" with
    | some (some v) => (salesforceId v.toList).toOption
    | _ => none)).toFinset

/-! ## C8: chunking coverage and bounded clause length -/

theorem buildChunk_append (maxLen : Nat) : ∀ (n : Nat) (l : List String),
    (buildChunk maxLen n l).1 ++ (buildChunk maxLen n l).2 = l := by
  intro n l
  induction l generalizing n with
  | nil => simp [buildChunk]
  | cons x rest ih =>
    simp only [buildChunk]
    by_cases h : n < maxLen - 22
    · simp only [h, if_true, List.cons_append]
      rw [ih]
    · simp only [h, if_false]
      rfl

theorem chunkIds_join_aux (maxLen : Nat) : ∀ (n : Nat) (l : List String),
    l.length ≤ n → (chunkIds maxLen l).flatten = l := by
  intro n
  induction n with
  | zero =>
    intro l h
    have : l = [] := List.eq_nil_of_length_eq_zero (Nat.le_zero.mp h)
    subst this
    simp [chunkIds]
  | succ n ih =>
    intro l h
    cases l with
    | nil => simp [chunkIds]
    | cons x rest =>
      rw [chunkIds]
      rw [List.flatten_cons]
      have hlen : (buildChunk maxLen (2 + x.length) rest).2.length ≤ n := by
        have h1 := buildChunk_snd_length maxLen (2 + x.length) rest
        have h2 : rest.length ≤ n := by simpa using h
        omega
      rw [ih _ hlen]
      have happ := buildChunk_append maxLen (2 + x.length) rest
      rw [List.cons_append, happ]

theorem chunkIds_join (maxLen : Nat) (l : List String) :
    (chunkIds maxLen l).flatten = l :=
  chunkIds_join_aux maxLen l.length l (le_refl _)

theorem buildChunk_chunk_len (maxLen : Nat) : ∀ (n : Nat) (l : List String),
    (∀ x ∈ l, x.length = 18) →
    n + (((buildChunk maxLen n l).1).map (fun y => 4 + y.length)).sum
      ≤ max n (maxLen - 22 + 21) := by
  intro n l
  induction l generalizing n with
  | nil => simp [buildChunk]
  | cons x rest ih =>
    intro h18
    simp only [buildChunk]
    by_cases h : n < maxLen - 22
    · simp only [h, if_true, List.map_cons, List.sum_cons]
      have hx : x.length = 18 := h18 x (List.mem_cons_self x rest)
      have ihr := ih (n + (4 + x.length)) (fun y hy => h18 y (List.mem_cons_of_mem x hy))
      have : n + (4 + x.length) ≤ maxLen - 22 + 21 := by omega
      omega
    · simp only [h, if_false]
      simp

theorem chunkIds_chunk_len_aux (maxLen : Nat) : ∀ (n : Nat) (l : List String),
    l.length ≤ n → (∀ x ∈ l, x.length = 18) →
    ∀ chunk ∈ chunkIds maxLen l, idListLen chunk ≤ max 20 (maxLen - 22 + 21) := by
  intro n
  induction n with
  | zero =>
    intro l h _ chunk hc
    have : l = [] := List.eq_nil_of_length_eq_zero (Nat.le_zero.mp h)
    subst this
    simp [chunkIds] at hc
  | succ n ih =>
    intro l h h18 chunk hc
    cases l with
    | nil => simp [chunkIds] at hc
    | cons x rest =>
      rw [chunkIds] at hc
      rcases List.mem_cons.mp hc with heq | hmem
      · subst heq
        have hx : x.length = 18 := h18 x (List.mem_cons_self x rest)
        have hb := buildChunk_chunk_len maxLen (2 + x.length) rest
          (fun y hy => h18 y (List.mem_cons_of_mem x hy))
        simp only [idListLen]
        omega
      · have hlen : (buildChunk maxLen (2 + x.length) rest).2.length ≤ n := by
          have h1 := buildChunk_snd_length maxLen (2 + x.length) rest
          have h2 : rest.length ≤ n := by simpa using h
          omega
        have hsub : ∀ y ∈ (buildChunk maxLen (2 + x.length) rest).2, y.length = 18 := by
          intro y hy
          apply h18
          apply List.mem_cons_of_mem
          rw [← buildChunk_append maxLen (2 + x.length) rest]
          exact List.mem_append_right _ hy
        exact ih _ hlen hsub chunk hmem

/-- C8: chunking of a duplicate-free identifier list covers every
identifier exactly once — the concatenation of the chunks is the input
list itself, so nothing is omitted, duplicated across chunks, or
duplicated within a chunk — and, for 18-character rendered ids with an
id field no longer than the SELECT field list (and of any realistic
length), every chunk's encoded `WHERE <field> IN (...)` clause stays
strictly under the 4000-character bound. -/
theorem c8_chunking_coverage (idField : FieldName) (fieldScope : List FieldName)
    (ids : List String)
    (hnd : ids.Nodup) (h18 : ∀ x ∈ ids, x.length = 18)
    (hfl : idField.length ≤ (getFieldList fieldScope).length)
    (hif : idField.length ≤ 3966) :
    (chunkIds (maxLenFor (getFieldList fieldScope)) ids).flatten = ids
    ∧ (∀ chunk ∈ chunkIds (maxLenFor (getFieldList fieldScope)) ids,
        chunk.Nodup ∧ 12 + idField.length + idListLen chunk < 4000) := by
  have hjoin := chunkIds_join (maxLenFor (getFieldList fieldScope)) ids
  refine ⟨hjoin, ?_⟩
  intro chunk hc
  constructor
  · have hjn : (chunkIds (maxLenFor (getFieldList fieldScope)) ids).flatten.Nodup := by
      rw [hjoin]; exact hnd
    exact hjn.sublist (List.sublist_flatten_of_mem hc)
  · have hb := chunkIds_chunk_len_aux (maxLenFor (getFieldList fieldScope))
      ids.length ids (le_refl _) h18 chunk hc
    have hm : maxLenFor (getFieldList fieldScope)
        = 4000 - (12 + (getFieldList fieldScope).length) := rfl
    omega

/-- Witness for C8: three concrete 18-character ids, id field `Id`,
field scope `Id, Name`. -/
theorem c8_chunking_coverage_witness :
    ((["001000000000000AAA", "001000000000001AAB", "001000000000002AAC"]
        : List String).Nodup
      ∧ (∀ x ∈ (["001000000000000AAA", "001000000000001AAB", "001000000000002AAC"]
          : List String), x.length = 18)
      ∧ ("Id" : String).length ≤ (getFieldList ["Id", "Name"]).length
      ∧ ("Id" : String).length ≤ 3966)
    ∧ ((chunkIds (maxLenFor (getFieldList ["Id", "Name"]))
        ["001000000000000AAA", "001000000000001AAB", "001000000000002AAC"]).flatten
        = ["001000000000000AAA", "001000000000001AAB", "001000000000002AAC"]
      ∧ (∀ chunk ∈ chunkIds (maxLenFor (getFieldList ["Id", "Name"]))
          ["001000000000000AAA", "001000000000001AAB", "001000000000002AAC"],
          chunk.Nodup ∧ 12 + ("Id" : String).length + idListLen chunk < 4000)) :=
  ⟨⟨by decide, by decide, by decide, by decide⟩,
    c8_chunking_coverage "Id" ["Id", "Name"]
      ["001000000000000AAA", "001000000000001AAB", "001000000000002AAC"]
      (by decide) (by decide) (by decide) (by decide)⟩

/-! ## C7: dedup invariant of `ExtractOperation.store_result` -/

/-- Operation-level store over a list of received records, as the query
passes drive it. -/
def opStoreMany (mappers : SObjectName → Option (Record → Record)) (sobj : SObjectName) :
    List Record → ExtractState → Except PyError ExtractState
  | [], s => .ok s
  | r :: rs, s =>
    match opStoreResult mappers s sobj r with
    | .error e => .error e
    | .ok s1 => opStoreMany mappers sobj rs s1

theorem opStoreResult_spec (mappers : SObjectName → Option (Record → Record))
    (s : ExtractState) (sobj : SObjectName) (r : Record) (idv : Option String) (sid : SfId)
    (hid : pyGet r "Id" = .ok idv) (hsid : salesforceIdOpt idv = .ok sid) :
    ∃ s', opStoreResult mappers s sobj r = .ok s'
      ∧ s'.extracted sobj = insert sid (s.extracted sobj)
      ∧ (∀ x, x ≠ sobj →
          s'.extracted x = s.extracted x ∧ s'.required x = s.required x
          ∧ s'.output x = s.output x)
      ∧ s'.required sobj = (s.required sobj).erase sid
      ∧ (sid ∈ s.extracted sobj → s'.extracted = s.extracted ∧ s'.output = s.output)
      ∧ (sid ∉ s.extracted sobj →
          s'.output sobj = s.output sobj ++ [transformRecord (mappers sobj) r]) := by
  unfold opStoreResult
  simp only [hid]
  simp only [hsid]
  by_cases hmem : sid ∈ s.extracted sobj
  · simp only [if_pos hmem]
    by_cases hreq : sid ∈ s.required sobj
    · simp only [if_pos hreq]
      refine ⟨_, rfl, ?_, ?_, ?_, ?_, ?_⟩
      · simp [Finset.insert_eq_self.mpr hmem]
      · intro x hx
        exact ⟨rfl, Function.update_noteq hx _ _, rfl⟩
      · simp [Function.update_same]
      · intro _; exact ⟨rfl, rfl⟩
      · intro hc; exact absurd hmem hc
    · simp only [if_neg hreq]
      refine ⟨_, rfl, ?_, ?_, ?_, ?_, ?_⟩
      · simp [Finset.insert_eq_self.mpr hmem]
      · intro x hx
        exact ⟨rfl, rfl, rfl⟩
      · simp [Finset.erase_eq_of_not_mem hreq]
      · intro _; exact ⟨rfl, rfl⟩
      · intro hc; exact absurd hmem hc
  · simp only [if_neg hmem]
    by_cases hreq : sid ∈ s.required sobj
    · simp only [if_pos hreq]
      refine ⟨_, rfl, ?_, ?_, ?_, ?_, ?_⟩
      · simp [Function.update_same]
      · intro x hx
        exact ⟨Function.update_noteq hx _ _, Function.update_noteq hx _ _,
          Function.update_noteq hx _ _⟩
      · simp [Function.update_same]
      · intro hc; exact absurd hc hmem
      · intro _; simp [Function.update_same]
    · simp only [if_neg hreq]
      refine ⟨_, rfl, ?_, ?_, ?_, ?_, ?_⟩
      · simp [Function.update_same]
      · intro x hx
        exact ⟨Function.update_noteq hx _ _, rfl, Function.update_noteq hx _ _⟩
      · simp [Finset.erase_eq_of_not_mem hreq]
      · intro hc; exact absurd hc hmem
      · intro _; simp [Function.update_same]

theorem opStoreResult_count (mappers : SObjectName → Option (Record → Record))
    (s : ExtractState) (sobj : SObjectName) (r : Record) (s' : ExtractState)
    (h : opStoreResult mappers s sobj r = .ok s') :
    ((s'.output sobj).length + (s.extracted sobj).card
      = (s.output sobj).length + (s'.extracted sobj).card)
    ∧ (∀ x, s.extracted x ⊆ s'.extracted x) := by
  unfold opStoreResult at h
  cases hid : pyGet r "Id" with
  | error e => simp only [hid] at h; exact Except.noConfusion h
  | ok idv =>
    simp only [hid] at h
    cases hsid : salesforceIdOpt idv with
    | error e => simp only [hsid] at h; exact Except.noConfusion h
    | ok sid =>
      simp only [hsid] at h
      by_cases hmem : sid ∈ s.extracted sobj
      · simp only [if_pos hmem] at h
        by_cases hreq : sid ∈ s.required sobj
        · simp only [if_pos hreq] at h
          cases h
          exact ⟨rfl, fun x => le_refl _⟩
        · simp only [if_neg hreq] at h
          cases h
          exact ⟨rfl, fun x => le_refl _⟩
      · simp only [if_neg hmem] at h
        by_cases hreq : sid ∈ s.required sobj
        · simp only [if_pos hreq] at h
          cases h
          constructor
          · simp [Function.update_same, Finset.card_insert_of_not_mem hmem]
            omega
          · intro x
            by_cases hx : x = sobj
            · subst hx
              simp [Function.update_same]
            · simp [Function.update_noteq hx]
        · simp only [if_neg hreq] at h
          cases h
          constructor
          · simp [Function.update_same, Finset.card_insert_of_not_mem hmem]
            omega
          · intro x
            by_cases hx : x = sobj
            · subst hx
              simp [Function.update_same]
            · simp [Function.update_noteq hx]

theorem opStoreMany_count (mappers : SObjectName → Option (Record → Record))
    (sobj : SObjectName) (recs : List Record) : ∀ (s s' : ExtractState),
    opStoreMany mappers sobj recs s = .ok s' →
    ((s'.output sobj).length + (s.extracted sobj).card
      = (s.output sobj).length + (s'.extracted sobj).card)
    ∧ (∀ x, s.extracted x ⊆ s'.extracted x) := by
  induction recs with
  | nil =>
    intro s s' h
    simp only [opStoreMany] at h
    cases h
    exact ⟨rfl, fun x => le_refl _⟩
  | cons r rs ih =>
    intro s s' h
    simp only [opStoreMany] at h
    cases h1 : opStoreResult mappers s sobj r with
    | error e => simp only [h1] at h; exact Except.noConfusion h
    | ok s1 =>
      simp only [h1] at h
      obtain ⟨hc1, hm1⟩ := opStoreResult_count mappers s sobj r s1 h1
      obtain ⟨hc2, hm2⟩ := ih s1 s' h
      have hcard1 : (s.extracted sobj).card ≤ (s1.extracted sobj).card :=
        Finset.card_le_card (hm1 sobj)
      have hcard2 : (s1.extracted sobj).card ≤ (s'.extracted sobj).card :=
        Finset.card_le_card (hm2 sobj)
      refine ⟨by omega, fun x => le_trans (hm1 x) (hm2 x)⟩

/-- C7: an identifier enters a type's extracted set at most once
(re-storing is a no-op for the set and the sink but still clears the
required set), a fresh identifier appends exactly one sink row, and over
any sequence of stored records the sink grows by exactly the number of
distinct new identifiers — so each identifier is written at most once. -/
theorem c7_store_result_dedup (mappers : SObjectName → Option (Record → Record))
    (s : ExtractState) (sobj : SObjectName) (r : Record) (idv : Option String) (sid : SfId)
    (hid : pyGet r "Id" = .ok idv) (hsid : salesforceIdOpt idv = .ok sid) :
    (∃ s', opStoreResult mappers s sobj r = .ok s'
      ∧ s'.extracted sobj = insert sid (s.extracted sobj)
      ∧ s'.required sobj = (s.required sobj).erase sid
      ∧ (sid ∈ s.extracted sobj → s'.extracted = s.extracted ∧ s'.output = s.output)
      ∧ (sid ∉ s.extracted sobj →
          s'.output sobj = s.output sobj ++ [transformRecord (mappers sobj) r]))
    ∧ (∀ (recs : List Record) (s0 s1 : ExtractState),
        opStoreMany mappers sobj recs s0 = .ok s1 →
        ((s1.output sobj).length + (s0.extracted sobj).card
          = (s0.output sobj).length + (s1.extracted sobj).card)
        ∧ (∀ x, s0.extracted x ⊆ s1.extracted x)) := by
  constructor
  · obtain ⟨s', h1, h2, _, h4, h5, h6⟩ := opStoreResult_spec mappers s sobj r idv sid hid hsid
    exact ⟨s', h1, h2, h4, h5, h6⟩
  · intro recs s0 s1 h
    exact opStoreMany_count mappers sobj recs s0 s1 h

/-- Witness for C7 at a concrete record and empty state. -/
theorem c7_store_result_dedup_witness :
    (pyGet [("Id", some "001000000000000AAA")] "Id" = .ok (some "001000000000000AAA")
      ∧ salesforceIdOpt (some "001000000000000AAA") = .ok "001000000000000AAA".toList)
    ∧ ((∃ s', opStoreResult (fun _ => none)
          ⟨fun _ => ∅, fun _ => ∅, fun _ => []⟩ "Account"
          [("Id", some "001000000000000AAA")] = .ok s'
        ∧ s'.extracted "Account"
          = insert "001000000000000AAA".toList
              ((⟨fun _ => ∅, fun _ => ∅, fun _ => []⟩ : ExtractState).extracted "Account")
        ∧ s'.required "Account"
          = (((⟨fun _ => ∅, fun _ => ∅, fun _ => []⟩ : ExtractState).required
              "Account").erase "001000000000000AAA".toList)
        ∧ ("001000000000000AAA".toList
            ∈ (⟨fun _ => ∅, fun _ => ∅, fun _ => []⟩ : ExtractState).extracted "Account" →
            s'.extracted = (⟨fun _ => ∅, fun _ => ∅, fun _ => []⟩ : ExtractState).extracted
            ∧ s'.output = (⟨fun _ => ∅, fun _ => ∅, fun _ => []⟩ : ExtractState).output)
        ∧ ("001000000000000AAA".toList
            ∉ (⟨fun _ => ∅, fun _ => ∅, fun _ => []⟩ : ExtractState).extracted "Account" →
            s'.output "Account"
              = (⟨fun _ => ∅, fun _ => ∅, fun _ => []⟩ : ExtractState).output "Account"
                ++ [transformRecord ((fun _ => none) "Account")
                    [("Id", some "001000000000000AAA")]]))
      ∧ (∀ (recs : List Record) (s0 s1 : ExtractState),
          opStoreMany (fun _ => none) "Account" recs s0 = .ok s1 →
          ((s1.output "Account").length + (s0.extracted "Account").card
            = (s0.output "Account").length + (s1.extracted "Account").card)
          ∧ (∀ x, s0.extracted x ⊆ s1.extracted x))) :=
  ⟨⟨by rfl, by rfl⟩,
    c7_store_result_dedup (fun _ => none) ⟨fun _ => ∅, fun _ => ∅, fun _ => []⟩
      "Account" [("Id", some "001000000000000AAA")] (some "001000000000000AAA")
      "001000000000000AAA".toList (by rfl) (by rfl)⟩

/-! ## C6: outside-lookup behaviors -/

/-- Load step with default outside-lookup behavior `drop-field` and one
descendant lookup, used by C6. -/
def c6DropStep : LoadStep :=
  ⟨"Contact", ["Name", "AccountId"], .dropField, [], ⟨[]⟩, ⟨[]⟩, ⟨["AccountId"]⟩⟩

/-- Load step with default outside-lookup behavior `recurse`, used by C6. -/
def c6RecurseStep : LoadStep :=
  ⟨"Contact", ["Name", "AccountId"], .recurse, [], ⟨[]⟩, ⟨[]⟩, ⟨["AccountId"]⟩⟩

/-- C6 counterexample: on the load side, with no translation entry for the
value, drop-field yields a record that still contains the field, holding
the empty string (not a record missing the field), and recurse silently
returns None (no NotImplementedError) because `get_value_for_lookup` has
no branch for it. -/
theorem c6_counterexample :
    populateLookups c6DropStep []
        [("Id", some "001000000000002"), ("AccountId", some "001000000000000")]
        ⟨["AccountId"]⟩
      = .ok [("Id", some "001000000000002"), ("AccountId", some "")]
    ∧ (([("Id", some "001000000000002"), ("AccountId", some "")] : Record).lookup
        "AccountId" = some (some ""))
    ∧ getValueForLookup c6RecurseStep [] "AccountId" (some "001000000000000")
        (some "001000000000002") = .ok none :=
  ⟨rfl, rfl, rfl⟩

/-- C6 amended: during extraction, `store_result` applies the outside
lookup behaviors as specified — drop-field removes the field from the
output record, include keeps the original value, error aborts the step,
recurse raises NotImplementedError. During load, `get_value_for_lookup`
keeps the value for include and raises for error, but drop-field blanks
the field to the empty string rather than removing it, and recurse
silently yields None. -/
theorem c6_outside_lookup_behaviors
    (st : ExtractionStep) (fm : FieldName → FieldDesc) (kpm : List (String × SObjectName))
    (s : ExtractState) (f : FieldName) (t : SObjectName) (v : String) (r : Record)
    (lstep : LoadStep) (m : GlobalMap) (value rid : Option String) (sid : SfId)
    (href : (fm f).referenceTo = [t])
    (hv : r.lookup f = some (some v))
    (hnot : v.toList ∉ s.extracted t)
    (hvs : salesforceIdOpt value = .ok sid)
    (hnone : getNewId m sid = none) :
    ((getOutsideLookupBehaviorForField st f = "drop-field" →
        applyOutsideBehaviors st fm kpm s r [f] = .ok (pyDel r f))
    ∧ (getOutsideLookupBehaviorForField st f = "include" →
        applyOutsideBehaviors st fm kpm s r [f] = .ok r)
    ∧ (getOutsideLookupBehaviorForField st f = "error" →
        applyOutsideBehaviors st fm kpm s r [f]
          = .error (.exception "outside reference not allowed by the extraction configuration"))
    ∧ (getOutsideLookupBehaviorForField st f = "recurse" →
        applyOutsideBehaviors st fm kpm s r [f] = .error .notImplementedError))
    ∧ ((getLookupBehaviorForField lstep f = .includeValue →
        getValueForLookup lstep m f value rid = .ok value)
    ∧ (getLookupBehaviorForField lstep f = .errorBehavior →
        getValueForLookup lstep m f value rid
          = .error (.exception "outside reference not allowed by the extraction configuration"))
    ∧ (getLookupBehaviorForField lstep f = .dropField →
        getValueForLookup lstep m f value rid = .ok (some ""))
    ∧ (getLookupBehaviorForField lstep f = .recurse →
        getValueForLookup lstep m f value rid = .ok none)) := by
  have hlen : (fm f).referenceTo.length = 1 := by rw [href]; rfl
  have hpg : pyGet r f = .ok (some v) := by simp [pyGet, hv]
  have hpi : pyIndex (fm f).referenceTo 0 = .ok t := by simp [pyIndex, href]
  have hdec : decide (v.toList ∈ s.extracted t) = false := decide_eq_false hnot
  have hnot2 : v.data ∉ s.extracted t := hnot
  constructor
  · refine ⟨?_, ?_, ?_, ?_⟩ <;> intro hb <;>
      simp [applyOutsideBehaviors, hpg, hlen, hpi, hdec, hb, hnot2]
  · have hload : ∀ (b : OutsideLB), getLookupBehaviorForField lstep f = b →
        getValueForLookup lstep m f value rid
          = (match getNewId m sid with
             | some mapped => .ok (some (sfIdStr mapped))
             | none =>
               match b with
               | .includeValue => .ok value
               | .errorBehavior =>
                 .error (.exception "outside reference not allowed by the extraction configuration")
               | .dropField => .ok (some "")
               | .recurse => .ok none) := by
      intro b hb
      simp only [getValueForLookup, hb, hvs]
    refine ⟨?_, ?_, ?_, ?_⟩ <;> intro hb <;> rw [hload _ hb] <;> rw [hnone]

/-- Witness for C6 amended, at concrete extraction and load inputs with
drop-field behavior on both sides. -/
theorem c6_outside_lookup_behaviors_witness :
    ((sampleFieldMap "AccountId").referenceTo = ["Account"]
      ∧ ([("AccountId", some "001000000000003")] : Record).lookup "AccountId"
        = some (some "001000000000003")
      ∧ "001000000000003".toList
        ∉ (⟨fun _ => ∅, fun _ => ∅, fun _ => []⟩ : ExtractState).extracted "Account"
      ∧ salesforceIdOpt (some "001000000000000") = .ok "001000000000000AAA".toList
      ∧ getNewId [] "001000000000000AAA".toList = none)
    ∧ (((getOutsideLookupBehaviorForField
          ⟨"Contact", "some", ["AccountId"], "trace-all", "drop-field", [],
            ⟨[]⟩, ⟨[]⟩, ⟨["AccountId"]⟩⟩ "AccountId" = "drop-field" →
        applyOutsideBehaviors
          ⟨"Contact", "some", ["AccountId"], "trace-all", "drop-field", [],
            ⟨[]⟩, ⟨[]⟩, ⟨["AccountId"]⟩⟩ sampleFieldMap []
          ⟨fun _ => ∅, fun _ => ∅, fun _ => []⟩
          [("AccountId", some "001000000000003")] ["AccountId"]
          = .ok (pyDel [("AccountId", some "001000000000003")] "AccountId"))
      ∧ (getOutsideLookupBehaviorForField
          ⟨"Contact", "some", ["AccountId"], "trace-all", "drop-field", [],
            ⟨[]⟩, ⟨[]⟩, ⟨["AccountId"]⟩⟩ "AccountId" = "include" →
        applyOutsideBehaviors
          ⟨"Contact", "some", ["AccountId"], "trace-all", "drop-field", [],
            ⟨[]⟩, ⟨[]⟩, ⟨["AccountId"]⟩⟩ sampleFieldMap []
          ⟨fun _ => ∅, fun _ => ∅, fun _ => []⟩
          [("AccountId", some "001000000000003")] ["AccountId"]
          = .ok [("AccountId", some "001000000000003")])
      ∧ (getOutsideLookupBehaviorForField
          ⟨"Contact", "some", ["AccountId"], "trace-all", "drop-field", [],
            ⟨[]⟩, ⟨[]⟩, ⟨["AccountId"]⟩⟩ "AccountId" = "error" →
        applyOutsideBehaviors
          ⟨"Contact", "some", ["AccountId"], "trace-all", "drop-field", [],
            ⟨[]⟩, ⟨[]⟩, ⟨["AccountId"]⟩⟩ sampleFieldMap []
          ⟨fun _ => ∅, fun _ => ∅, fun _ => []⟩
          [("AccountId", some "001000000000003")] ["AccountId"]
          = .error (.exception "outside reference not allowed by the extraction configuration"))
      ∧ (getOutsideLookupBehaviorForField
          ⟨"Contact", "some", ["AccountId"], "trace-all", "drop-field", [],
            ⟨[]⟩, ⟨[]⟩, ⟨["AccountId"]⟩⟩ "AccountId" = "recurse" →
        applyOutsideBehaviors
          ⟨"Contact", "some", ["AccountId"], "trace-all", "drop-field", [],
            ⟨[]⟩, ⟨[]⟩, ⟨["AccountId"]⟩⟩ sampleFieldMap []
          ⟨fun _ => ∅, fun _ => ∅, fun _ => []⟩
          [("AccountId", some "001000000000003")] ["AccountId"]
          = .error .notImplementedError))
      ∧ ((getLookupBehaviorForField c6DropStep "AccountId" = .includeValue →
          getValueForLookup c6DropStep [] "AccountId" (some "001000000000000")
            (some "001000000000002") = .ok (some "001000000000000"))
        ∧ (getLookupBehaviorForField c6DropStep "AccountId" = .errorBehavior →
          getValueForLookup c6DropStep [] "AccountId" (some "001000000000000")
            (some "001000000000002")
            = .error (.exception "outside reference not allowed by the extraction configuration"))
        ∧ (getLookupBehaviorForField c6DropStep "AccountId" = .dropField →
          getValueForLookup c6DropStep [] "AccountId" (some "001000000000000")
            (some "001000000000002") = .ok (some ""))
        ∧ (getLookupBehaviorForField c6DropStep "AccountId" = .recurse →
          getValueForLookup c6DropStep [] "AccountId" (some "001000000000000")
            (some "001000000000002") = .ok none))) :=
  ⟨⟨by rfl, by rfl, by decide, by rfl, by rfl⟩,
    c6_outside_lookup_behaviors
      ⟨"Contact", "some", ["AccountId"], "trace-all", "drop-field", [],
        ⟨[]⟩, ⟨[]⟩, ⟨["AccountId"]⟩⟩
      sampleFieldMap [] ⟨fun _ => ∅, fun _ => ∅, fun _ => []⟩
      "AccountId" "Account" "001000000000003" [("AccountId", some "001000000000003")]
      c6DropStep [] (some "001000000000000") (some "001000000000002")
      "001000000000000AAA".toList
      (by rfl) (by rfl) (by decide) (by rfl) (by rfl)⟩

/-! ## C4: the self-lookup tracing loop terminates at a fixed point -/

theorem addDependency_extracted (s : ExtractState) (sobj : SObjectName) (id : SfId) :
    (addDependency s sobj id).extracted = s.extracted := by
  unfold addDependency
  split <;> rfl

theorem storeSelfLookupDeps_extracted (st : ExtractionStep) (r : Record) :
    ∀ (ls : List FieldName) (s s' : ExtractState),
    storeSelfLookupDeps st r s ls = .ok s' → s'.extracted = s.extracted := by
  intro ls
  induction ls with
  | nil =>
    intro s s' h
    simp only [storeSelfLookupDeps] at h
    cases h
    rfl
  | cons l rest ih =>
    intro s s' h
    rw [storeSelfLookupDeps] at h
    repeat' split at h
    all_goals first
      | exact Except.noConfusion h
      | simp only [ih _ _ h, addDependency_extracted]

theorem storeDependentDeps_extracted (st : ExtractionStep) (fm : FieldName → FieldDesc)
    (sobjectList : List SObjectName) (kpm : List (String × SObjectName)) (r : Record) :
    ∀ (ls : List FieldName) (s s' : ExtractState),
    storeDependentDeps st fm sobjectList kpm r s ls = .ok s' → s'.extracted = s.extracted := by
  intro ls
  induction ls with
  | nil =>
    intro s s' h
    simp only [storeDependentDeps] at h
    cases h
    rfl
  | cons f rest ih =>
    intro s s' h
    rw [storeDependentDeps] at h
    repeat' split at h
    all_goals first
      | exact Except.noConfusion h
      | simp only [ih _ _ h, addDependency_extracted]

theorem pyDel_cons (a : FieldName) (b : Option String) (r : Record) (f : FieldName) :
    pyDel ((a, b) :: r) f = if a = f then pyDel r f else (a, b) :: pyDel r f := by
  simp only [pyDel, List.filter_cons]
  by_cases haf : a = f
  · simp [haf]
  · simp [haf]

theorem pyDel_lookup_self (f : FieldName) : ∀ (r : Record),
    (pyDel r f).lookup f = none := by
  intro r
  induction r with
  | nil => rfl
  | cons p r ih =>
    obtain ⟨a, b⟩ := p
    rw [pyDel_cons]
    by_cases haf : a = f
    · rw [if_pos haf]
      exact ih
    · rw [if_neg haf]
      simp only [List.lookup]
      rw [beq_eq_false_iff_ne.mpr (Ne.symm haf)]
      exact ih

theorem pyDel_lookup_some (f k : FieldName) (w : Option String) : ∀ (r : Record),
    (pyDel r f).lookup k = some w → r.lookup k = some w := by
  intro r
  induction r with
  | nil => intro h; exact Option.noConfusion h
  | cons p r ih =>
    obtain ⟨a, b⟩ := p
    intro h
    rw [pyDel_cons] at h
    by_cases haf : a = f
    · rw [if_pos haf] at h
      by_cases hk : k = a
      · rw [hk, haf, pyDel_lookup_self] at h
        exact Option.noConfusion h
      · simp only [List.lookup]
        rw [beq_eq_false_iff_ne.mpr hk]
        exact ih h
    · rw [if_neg haf] at h
      simp only [List.lookup] at h ⊢
      by_cases hk : k = a
      · have hbeq : (k == a) = true := beq_iff_eq.mpr hk
        rw [hbeq] at h ⊢
        exact h
      · have hbeq : (k == a) = false := beq_eq_false_iff_ne.mpr hk
        rw [hbeq] at h ⊢
        exact ih h

theorem applyOutsideBehaviors_lookup (st : ExtractionStep) (fm : FieldName → FieldDesc)
    (kpm : List (String × SObjectName)) (s : ExtractState) :
    ∀ (ls : List FieldName) (r r2 : Record),
    applyOutsideBehaviors st fm kpm s r ls = .ok r2 →
    ∀ k w, r2.lookup k = some w → r.lookup k = some w := by
  intro ls
  induction ls with
  | nil =>
    intro r r2 h
    simp only [applyOutsideBehaviors] at h
    cases h
    exact fun k w hw => hw
  | cons f rest ih =>
    intro r r2 h
    simp only [applyOutsideBehaviors] at h
    repeat' split at h
    all_goals first
      | exact Except.noConfusion h
      | exact ih _ _ h
      | exact fun k w hw => pyDel_lookup_some f k w r (ih _ _ h k w hw)

theorem pyGet_ok (r : Record) (k : FieldName) (v : Option String)
    (h : pyGet r k = .ok v) : r.lookup k = some v := by
  unfold pyGet at h
  cases hl : r.lookup k with
  | none => rw [hl] at h; exact Except.noConfusion h
  | some w =>
    rw [hl] at h
    cases h
    rfl

theorem salesforceIdOpt_ok (idv : Option String) (sid : SfId)
    (h : salesforceIdOpt idv = .ok sid) :
    ∃ v, idv = some v ∧ salesforceId v.toList = .ok sid := by
  cases idv with
  | none => exact Except.noConfusion h
  | some v => exact ⟨v, rfl, h⟩

theorem mem_orgIds (org : Org) (sobj : SObjectName) (r : Record) (v : String) (sid : SfId)
    (hr : r ∈ org.records sobj) (hid : r.lookup "Id" = some (some v))
    (hsid : salesforceId v.toList = .ok sid) : sid ∈ orgIds org sobj := by
  unfold orgIds
  rw [List.mem_toFinset, List.mem_filterMap]
  refine ⟨r, hr, ?_⟩
  rw [hid]
  show (salesforceId v.toList).toOption = some sid
  rw [hsid]
  rfl

/-- Growth of the extracted registries across one engine operation: never
shrinking, untouched for other types, and staying inside the org's ids for
the step's type. -/
def ExtGrowth (ctx : ExtractCtx) (st : ExtractionStep) (s s' : ExtractState) : Prop :=
  (∀ x, s.extracted x ⊆ s'.extracted x)
  ∧ (∀ x, x ≠ st.sobjectname → s'.extracted x = s.extracted x)
  ∧ s'.extracted st.sobjectname
      ⊆ s.extracted st.sobjectname ∪ orgIds ctx.org st.sobjectname

theorem extGrowth_refl (ctx : ExtractCtx) (st : ExtractionStep) (s : ExtractState) :
    ExtGrowth ctx st s s :=
  ⟨fun _ => le_refl _, fun _ _ => rfl, Finset.subset_union_left⟩

theorem extGrowth_trans {ctx : ExtractCtx} {st : ExtractionStep} {s1 s2 s3 : ExtractState}
    (h12 : ExtGrowth ctx st s1 s2) (h23 : ExtGrowth ctx st s2 s3) :
    ExtGrowth ctx st s1 s3 := by
  obtain ⟨a12, b12, c12⟩ := h12
  obtain ⟨a23, b23, c23⟩ := h23
  refine ⟨fun x => le_trans (a12 x) (a23 x), fun x hx => (b23 x hx).trans (b12 x hx), ?_⟩
  intro i hi
  rcases Finset.mem_union.mp (c23 hi) with h2 | ho
  · exact c12 h2
  · exact Finset.mem_union_right _ ho

theorem opStoreResult_ok_inv (mappers : SObjectName → Option (Record → Record))
    (s : ExtractState) (sobj : SObjectName) (r : Record) (s' : ExtractState)
    (h : opStoreResult mappers s sobj r = .ok s') :
    ∃ idv sid, pyGet r "Id" = .ok idv ∧ salesforceIdOpt idv = .ok sid
      ∧ s'.extracted sobj = insert sid (s.extracted sobj)
      ∧ (∀ x, x ≠ sobj → s'.extracted x = s.extracted x) := by
  cases hid : pyGet r "Id" with
  | error e =>
    unfold opStoreResult at h
    rw [hid] at h
    exact Except.noConfusion h
  | ok idv =>
    cases hsid : salesforceIdOpt idv with
    | error e =>
      unfold opStoreResult at h
      rw [hid] at h
      simp only [hsid] at h
      exact Except.noConfusion h
    | ok sid =>
      obtain ⟨s'', heq, hext, hother, _, _, _⟩ :=
        opStoreResult_spec mappers s sobj r idv sid hid hsid
      rw [heq] at h
      cases h
      exact ⟨idv, sid, rfl, hsid, hext, fun x hx => (hother x hx).1⟩

theorem stepStoreResult_growth (ctx : ExtractCtx) (st : ExtractionStep)
    (s s' : ExtractState) (r : Record)
    (hr : r ∈ ctx.org.records st.sobjectname)
    (h : stepStoreResult ctx st s r = .ok s') : ExtGrowth ctx st s s' := by
  unfold stepStoreResult at h
  cases h1 : storeSelfLookupDeps st r s st.self_lookups.elems with
  | error e => simp only [h1] at h; exact Except.noConfusion h
  | ok s1 =>
    simp only [h1] at h
    cases h2 : storeDependentDeps st ctx.fm ctx.sobjectList ctx.keyPrefixMap r s1
        st.dependent_lookups.elems with
    | error e => simp only [h2] at h; exact Except.noConfusion h
    | ok s2 =>
      simp only [h2] at h
      cases h3 : applyOutsideBehaviors st ctx.fm ctx.keyPrefixMap s2 r
          st.descendent_lookups.elems with
      | error e => simp only [h3] at h; exact Except.noConfusion h
      | ok r2 =>
        simp only [h3] at h
        have he1 : s1.extracted = s.extracted :=
          storeSelfLookupDeps_extracted st r _ s s1 h1
        have he2 : s2.extracted = s.extracted := by
          rw [storeDependentDeps_extracted st ctx.fm ctx.sobjectList ctx.keyPrefixMap r _ s1 s2 h2]
          exact he1
        obtain ⟨idv, sid, hid, hsid, hext, hother⟩ :=
          opStoreResult_ok_inv ctx.mappers s2 st.sobjectname r2 s' h
        obtain ⟨v, hveq, hvsid⟩ := salesforceIdOpt_ok idv sid hsid
        have hlk2 : r2.lookup "Id" = some idv := pyGet_ok r2 "Id" idv hid
        have hlk : r.lookup "Id" = some (some v) := by
          rw [← hveq]
          exact applyOutsideBehaviors_lookup st ctx.fm ctx.keyPrefixMap s2
            st.descendent_lookups.elems r r2 h3 "Id" idv hlk2
        have hsidO : sid ∈ orgIds ctx.org st.sobjectname :=
          mem_orgIds ctx.org st.sobjectname r v sid hr hlk hvsid
        refine ⟨?_, ?_, ?_⟩
        · intro x
          by_cases hx : x = st.sobjectname
          · subst hx
            rw [hext, he2]
            exact Finset.subset_insert _ _
          · rw [hother x hx, he2]
        · intro x hx
          rw [hother x hx, he2]
        · rw [hext, he2]
          exact Finset.insert_subset (Finset.mem_union_right _ hsidO)
            Finset.subset_union_left

theorem storeResults_growth (ctx : ExtractCtx) (st : ExtractionStep) :
    ∀ (rs : List Record) (s s' : ExtractState),
    (∀ r ∈ rs, r ∈ ctx.org.records st.sobjectname) →
    storeResults ctx st rs s = .ok s' → ExtGrowth ctx st s s' := by
  intro rs
  induction rs with
  | nil =>
    intro s s' _ h
    simp only [storeResults] at h
    cases h
    exact extGrowth_refl ctx st s
  | cons r rs ih =>
    intro s s' hall h
    simp only [storeResults] at h
    cases h1 : stepStoreResult ctx st s r with
    | error e => simp only [h1] at h; exact Except.noConfusion h
    | ok s1 =>
      simp only [h1] at h
      exact extGrowth_trans
        (stepStoreResult_growth ctx st s s1 r (hall r (List.mem_cons_self r rs)) h1)
        (ih s1 s' (fun x hx => hall x (List.mem_cons_of_mem r hx)) h)

theorem orgQueryByField_mem (org : Org) (sobj : SObjectName) (field : FieldName)
    (c : List String) : ∀ r ∈ orgQueryByField org sobj field c, r ∈ org.records sobj := by
  intro r hr
  exact (List.mem_filter.mp hr).1

theorem processChunks_growth (ctx : ExtractCtx) (st : ExtractionStep) (idField : FieldName) :
    ∀ (cs : List (List String)) (s s' : ExtractState),
    processChunks ctx st idField cs s = .ok s' → ExtGrowth ctx st s s' := by
  intro cs
  induction cs with
  | nil =>
    intro s s' h
    simp only [processChunks] at h
    cases h
    exact extGrowth_refl ctx st s
  | cons c cs ih =>
    intro s s' h
    simp only [processChunks] at h
    cases h1 : storeResults ctx st (orgQueryByField ctx.org st.sobjectname idField c) s with
    | error e => simp only [h1] at h; exact Except.noConfusion h
    | ok s1 =>
      simp only [h1] at h
      exact extGrowth_trans
        (storeResults_growth ctx st _ s s1
          (orgQueryByField_mem ctx.org st.sobjectname idField c) h1)
        (ih s1 s' h)

theorem performIdFieldPass_growth (ctx : ExtractCtx) (st : ExtractionStep)
    (idField : FieldName) (idSet : Finset SfId) (s s' : ExtractState)
    (h : performIdFieldPass ctx st idField idSet s = .ok s') : ExtGrowth ctx st s s' := by
  unfold performIdFieldPass at h
  by_cases hempty : idSet = ∅
  · rw [if_pos hempty] at h
    cases h
    exact extGrowth_refl ctx st s
  · rw [if_neg hempty] at h
    exact processChunks_growth ctx st idField _ s s' h

theorem resolveRegisteredDependencies_growth (ctx : ExtractCtx) (st : ExtractionStep)
    (s s' : ExtractState) (h : resolveRegisteredDependencies ctx st s = .ok s') :
    ExtGrowth ctx st s s' := by
  simp only [resolveRegisteredDependencies] at h
  cases h1 : performIdFieldPass ctx st "Id" (getDependencies s st.sobjectname) s with
  | error e => simp only [h1] at h; exact Except.noConfusion h
  | ok s1 =>
    simp only [h1] at h
    split at h
    · exact Except.noConfusion h
    · cases h
      exact performIdFieldPass_growth ctx st "Id" _ s s' h1

theorem selfLookupChildrenPasses_growth (ctx : ExtractCtx) (st : ExtractionStep) :
    ∀ (ls : List FieldName) (s s' : ExtractState),
    selfLookupChildrenPasses ctx st ls s = .ok s' → ExtGrowth ctx st s s' := by
  intro ls
  induction ls with
  | nil =>
    intro s s' h
    simp only [selfLookupChildrenPasses] at h
    cases h
    exact extGrowth_refl ctx st s
  | cons l rest ih =>
    intro s s' h
    simp only [selfLookupChildrenPasses] at h
    cases h1 : performLookupPass ctx st l s with
    | error e => simp only [h1] at h; exact Except.noConfusion h
    | ok s1 =>
      simp only [h1] at h
      exact extGrowth_trans
        (performIdFieldPass_growth ctx st l _ s s1 h1)
        (ih s1 s' h)

theorem tracePass_growth (ctx : ExtractCtx) (st : ExtractionStep) (s s' : ExtractState)
    (h : tracePass ctx st s = .ok s') : ExtGrowth ctx st s s' := by
  unfold tracePass at h
  cases h1 : selfLookupChildrenPasses ctx st st.self_lookups.elems s with
  | error e => rw [h1] at h; exact Except.noConfusion h
  | ok s1 =>
    rw [h1] at h
    exact extGrowth_trans
      (selfLookupChildrenPasses_growth ctx st _ s s1 h1)
      (resolveRegisteredDependencies_growth ctx st s1 s' h)

theorem traceLoopF_some (ctx : ExtractCtx) (st : ExtractionStep) :
    ∀ (fuel : Nat) (s : ExtractState),
    (orgIds ctx.org st.sobjectname \ s.extracted st.sobjectname).card < fuel →
    traceLoopF ctx st fuel s ≠ none := by
  intro fuel
  induction fuel with
  | zero => intro s h; omega
  | succ n ih =>
    intro s hcard
    cases htp : tracePass ctx st s with
    | error e =>
      rw [traceLoopF, htp]
      exact fun hc => Option.noConfusion hc
    | ok s1 =>
      have hred : traceLoopF ctx st (n + 1) s
          = if (s1.extracted st.sobjectname).card = (s.extracted st.sobjectname).card
            then some (.ok s1) else traceLoopF ctx st n s1 := by
        rw [traceLoopF, htp]
      rw [hred]
      by_cases heq : (s1.extracted st.sobjectname).card = (s.extracted st.sobjectname).card
      · rw [if_pos heq]
        exact fun hc => Option.noConfusion hc
      · rw [if_neg heq]
        obtain ⟨hmono, _, hbound⟩ := tracePass_growth ctx st s s1 htp
        have hsub : s.extracted st.sobjectname ⊆ s1.extracted st.sobjectname :=
          hmono st.sobjectname
        have hlt : (s.extracted st.sobjectname).card < (s1.extracted st.sobjectname).card := by
          have := Finset.card_le_card hsub
          omega
        have hns : ¬ (s1.extracted st.sobjectname ⊆ s.extracted st.sobjectname) := by
          intro hc
          have := Finset.card_le_card hc
          omega
        obtain ⟨i, hi1, hi2⟩ := Finset.not_subset.mp hns
        have hio : i ∈ orgIds ctx.org st.sobjectname := by
          rcases Finset.mem_union.mp (hbound hi1) with hin | ho
          · exact absurd hin hi2
          · exact ho
        have hstrict : (orgIds ctx.org st.sobjectname \ s1.extracted st.sobjectname)
            ⊂ (orgIds ctx.org st.sobjectname \ s.extracted st.sobjectname) := by
          constructor
          · intro x hx
            rw [Finset.mem_sdiff] at hx ⊢
            exact ⟨hx.1, fun hc => hx.2 (hsub hc)⟩
          · intro hc
            have : i ∈ orgIds ctx.org st.sobjectname \ s1.extracted st.sobjectname :=
              hc (Finset.mem_sdiff.mpr ⟨hio, hi2⟩)
            rw [Finset.mem_sdiff] at this
            exact this.2 hi1
        have hcard1 : (orgIds ctx.org st.sobjectname \ s1.extracted st.sobjectname).card
            < (orgIds ctx.org st.sobjectname \ s.extracted st.sobjectname).card :=
          Finset.card_lt_card hstrict
        exact ih s1 (by omega)

theorem traceLoopF_mono (ctx : ExtractCtx) (st : ExtractionStep) :
    ∀ (fuel : Nat) (s s' : ExtractState),
    traceLoopF ctx st fuel s = some (.ok s') → ∀ x, s.extracted x ⊆ s'.extracted x := by
  intro fuel
  induction fuel with
  | zero => intro s s' h; exact Option.noConfusion h
  | succ n ih =>
    intro s s' h
    rw [traceLoopF] at h
    cases htp : tracePass ctx st s with
    | error e =>
      simp only [htp] at h
      exact Except.noConfusion (Option.some.inj h)
    | ok s1 =>
      simp only [htp] at h
      obtain ⟨hmono, _, _⟩ := tracePass_growth ctx st s s1 htp
      by_cases heq : (s1.extracted st.sobjectname).card = (s.extracted st.sobjectname).card
      · rw [if_pos heq] at h
        have : s1 = s' := Except.ok.inj (Option.some.inj h)
        subst this
        exact hmono
      · rw [if_neg heq] at h
        exact fun x => le_trans (hmono x) (ih s1 s' h x)

theorem traceLoopF_exit (ctx : ExtractCtx) (st : ExtractionStep) :
    ∀ (fuel : Nat) (s s' : ExtractState),
    traceLoopF ctx st fuel s = some (.ok s') →
    ∃ s0, tracePass ctx st s0 = .ok s'
      ∧ s0.extracted st.sobjectname = s'.extracted st.sobjectname := by
  intro fuel
  induction fuel with
  | zero => intro s s' h; exact Option.noConfusion h
  | succ n ih =>
    intro s s' h
    rw [traceLoopF] at h
    cases htp : tracePass ctx st s with
    | error e =>
      simp only [htp] at h
      exact Except.noConfusion (Option.some.inj h)
    | ok s1 =>
      simp only [htp] at h
      by_cases heq : (s1.extracted st.sobjectname).card = (s.extracted st.sobjectname).card
      · rw [if_pos heq] at h
        have hinj : s1 = s' := Except.ok.inj (Option.some.inj h)
        subst hinj
        obtain ⟨hmono, _, _⟩ := tracePass_growth ctx st s s1 htp
        refine ⟨s, htp, ?_⟩
        exact Finset.eq_of_subset_of_card_le (hmono st.sobjectname) (by omega)
      · rw [if_neg heq] at h
        exact ih s1 s' h

/-- C4: for a step with at least one self-lookup, behavior trace-all, and
scope other than ALL_RECORDS, the children-then-parents tracing loop
terminates within a bound set by the org's ids not yet extracted, the
extracted set never shrinks (no operation removes an extracted
identifier, across every pass), and the loop exits exactly when an
iteration adds zero new identifiers: it returns right after an iteration
that left the extracted set unchanged, and keeps iterating otherwise. -/
theorem c4_trace_loop_fixed_point (ctx : ExtractCtx) (st : ExtractionStep) (s : ExtractState)
    (hself : st.self_lookups.elems ≠ [])
    (hball : st.selfLookupBehavior = "trace-all")
    (hscope : st.scope ≠ "all") :
    selfLookupTracing ctx st
        ((orgIds ctx.org st.sobjectname \ s.extracted st.sobjectname).card + 1) s ≠ none
    ∧ (∀ s', selfLookupTracing ctx st
          ((orgIds ctx.org st.sobjectname \ s.extracted st.sobjectname).card + 1) s
          = some (.ok s') →
        (∀ x, s.extracted x ⊆ s'.extracted x)
        ∧ ∃ s0, tracePass ctx st s0 = .ok s'
            ∧ s0.extracted st.sobjectname = s'.extracted st.sobjectname)
    ∧ (∀ s1 s2, tracePass ctx st s1 = .ok s2 → ∀ x, s1.extracted x ⊆ s2.extracted x)
    ∧ (∀ (fuel : Nat) (s1 s2 : ExtractState), tracePass ctx st s1 = .ok s2 →
        (((s2.extracted st.sobjectname).card = (s1.extracted st.sobjectname).card →
          traceLoopF ctx st (fuel + 1) s1 = some (.ok s2))
        ∧ ((s2.extracted st.sobjectname).card ≠ (s1.extracted st.sobjectname).card →
          traceLoopF ctx st (fuel + 1) s1 = traceLoopF ctx st fuel s2))) := by
  have hguard : st.self_lookups.elems ≠ [] ∧ st.selfLookupBehavior = "trace-all"
      ∧ st.scope ≠ "all" := ⟨hself, hball, hscope⟩
  have hred : ∀ (fuel : Nat),
      selfLookupTracing ctx st fuel s = traceLoopF ctx st fuel s := by
    intro fuel
    unfold selfLookupTracing
    rw [if_pos hguard]
  refine ⟨?_, ?_, ?_, ?_⟩
  · rw [hred]
    exact traceLoopF_some ctx st _ s (by omega)
  · intro s' h
    rw [hred] at h
    exact ⟨traceLoopF_mono ctx st _ s s' h, traceLoopF_exit ctx st _ s s' h⟩
  · intro s1 s2 htp
    exact (tracePass_growth ctx st s1 s2 htp).1
  · intro fuel s1 s2 htp
    have hstep : traceLoopF ctx st (fuel + 1) s1
        = if (s2.extracted st.sobjectname).card = (s1.extracted st.sobjectname).card
          then some (.ok s2) else traceLoopF ctx st fuel s2 := by
      rw [traceLoopF, htp]
    constructor
    · intro hcEq
      rw [hstep, if_pos hcEq]
    · intro hcNe
      rw [hstep, if_neg hcNe]

/-- Extraction context used by the C4 witness: two types, no org rows. -/
def c4Ctx : ExtractCtx :=
  ⟨sampleFieldMap, ["Account", "Contact"], [], fun _ => none, ⟨fun _ => []⟩⟩

/-- Extraction step used by the C4 witness: Contact with the self-lookup
ReportsToId, trace-all, SELECTED_RECORDS scope. -/
def c4Step : ExtractionStep :=
  ⟨"Contact", "some", ["Id", "ReportsToId"], "trace-all", "include", [],
    ⟨["ReportsToId"]⟩, ⟨[]⟩, ⟨[]⟩⟩

/-- Empty registries used by the C4 witness. -/
def c4State : ExtractState :=
  ⟨fun _ => ∅, fun _ => ∅, fun _ => []⟩

/-- Witness for C4 at the concrete context, step and state. -/
theorem c4_trace_loop_fixed_point_witness :
    (c4Step.self_lookups.elems ≠ []
      ∧ c4Step.selfLookupBehavior = "trace-all"
      ∧ c4Step.scope ≠ "all")
    ∧ (selfLookupTracing c4Ctx c4Step
        ((orgIds c4Ctx.org c4Step.sobjectname
          \ c4State.extracted c4Step.sobjectname).card + 1) c4State ≠ none
      ∧ (∀ s', selfLookupTracing c4Ctx c4Step
            ((orgIds c4Ctx.org c4Step.sobjectname
              \ c4State.extracted c4Step.sobjectname).card + 1) c4State
            = some (.ok s') →
          (∀ x, c4State.extracted x ⊆ s'.extracted x)
          ∧ ∃ s0, tracePass c4Ctx c4Step s0 = .ok s'
              ∧ s0.extracted c4Step.sobjectname = s'.extracted c4Step.sobjectname)
      ∧ (∀ s1 s2, tracePass c4Ctx c4Step s1 = .ok s2 →
          ∀ x, s1.extracted x ⊆ s2.extracted x)
      ∧ (∀ (fuel : Nat) (s1 s2 : ExtractState), tracePass c4Ctx c4Step s1 = .ok s2 →
          (((s2.extracted c4Step.sobjectname).card
              = (s1.extracted c4Step.sobjectname).card →
            traceLoopF c4Ctx c4Step (fuel + 1) s1 = some (.ok s2))
          ∧ ((s2.extracted c4Step.sobjectname).card
              ≠ (s1.extracted c4Step.sobjectname).card →
            traceLoopF c4Ctx c4Step (fuel + 1) s1 = traceLoopF c4Ctx c4Step fuel s2)))) :=
  ⟨⟨by decide, by rfl, by decide⟩,
    c4_trace_loop_fixed_point c4Ctx c4Step c4State (by decide) (by rfl) (by decide)⟩

end Amaxa
